import Mathlib

/-!
Verification of the room-booking agent's deterministic core against its
natural-language specification.

The Python sources are embedded shallowly:

* strings are `String` / `List Char`; Python's substring test `a in b`,
  `str.lower()`, and `' '.join` are modelled directly;
* Python floats in the field-mapper scores are modelled as exact rationals.
  All constants are multiples of 1/10 and every comparison performed by the
  code (`score > 0.5`, `min(score, 1.0)`) is decided identically by IEEE
  doubles and by rationals for the reachable sums (in particular
  0.2 + 0.3 == 0.5 holds exactly in both semantics);
* `datetime.now()` is a parameter `Now`, read once per call;
* fallible operations return `Option`.
-/

namespace RoomBooking

/-- ASCII lower-casing of a character, as Python `str.lower` acts on the
ASCII strings occurring in this code base. -/
def lowerChar (c : Char) : Char := c.toLower

/-- Python `str.lower()` (ASCII fragment). -/
def pyLower (s : String) : String := ⟨s.data.map lowerChar⟩

/-- Is `needle` a prefix of `hay`. -/
def listIsPrefix : List Char → List Char → Bool
  | [], _ => true
  | _ :: _, [] => false
  | a :: as, b :: bs => a == b && listIsPrefix as bs

/-- Python's substring test `needle in hay` on lists of characters. -/
def listContainsSub (needle : List Char) : List Char → Bool
  | [] => listIsPrefix needle []
  | c :: rest => listIsPrefix needle (c :: rest) || listContainsSub needle rest

/-- Python's substring test `needle in hay` on strings. -/
def strContains (needle hay : String) : Bool :=
  listContainsSub needle.data hay.data

/-- Python truthiness of an optional string: `None` and `''` are falsy. -/
def strTruthy : Option String → Bool
  | none => false
  | some s => !s.data.isEmpty

/-- Python `' '.join(texts)` where `texts` collects the truthy fields. -/
def joinSpace : List String → String
  | [] => ""
  | [s] => s
  | s :: rest => s ++ " " ++ joinSpace rest

/-! ### Submission classifier (`MomentusAutomation._handle_momentus_response`) -/

/-- The tagged result of a submission attempt (`BookingOutcome` in the spec). -/
inductive RespType where
  | booking_success
  | search_results
  | error
  | unknown
deriving DecidableEq, Repr

/-- The `success_indicators` list from `_handle_momentus_response`. -/
def successIndicators : List String :=
  ["booking confirmed", "reservation successful", "booking complete",
   "reserved successfully", "confirmation number", "booking reference"]

/-- Error keywords from `_handle_momentus_response`. -/
def errorKeywords : List String :=
  ["error", "not available", "conflict", "invalid"]

/-- Lexical page classifier of `_handle_momentus_response`: the page source is
lower-cased and scanned for the keyword sets, first matching category wins in
the order success, search results, error, unknown. -/
def classifyResponse (pageSource : String) : RespType :=
  let p := pyLower pageSource
  if successIndicators.any (fun k => strContains k p) then .booking_success
  else if strContains "available room" p || strContains "search result" p then .search_results
  else if errorKeywords.any (fun k => strContains k p) then .error
  else .unknown

/-- Predicate: the lower-cased page contains a success indicator. -/
def hasSuccessIndicator (p : String) : Bool :=
  successIndicators.any (fun k => strContains k (pyLower p))

/-- Predicate: the lower-cased page contains a search-results indicator. -/
def hasSearchIndicator (p : String) : Bool :=
  strContains "available room" (pyLower p) || strContains "search result" (pyLower p)

/-- Predicate: the lower-cased page contains an error keyword. -/
def hasErrorKeyword (p : String) : Bool :=
  errorKeywords.any (fun k => strContains k (pyLower p))

/-! ### LLM dropdown oracle validation (`AIDropdownMatcher`) -/

/-- Validation logic of `AIDropdownMatcher.match_dropdown_options` applied to
the raw model response: verbatim member, sentinel `NONE`, else first option
related to the response by case-insensitive substring containment in either
direction, else no match. -/
def matchDropdownOptions (response : String) (options : List String) : Option String :=
  if options.contains response then some response
  else if response == "NONE" then none
  else
    options.find? (fun o =>
      strContains (pyLower response) (pyLower o) ||
      strContains (pyLower o) (pyLower response))

/-- Validation logic of `AIDropdownMatcher.interpret_capacity_requirement`:
verbatim member, else substring fallback, else a medium-capacity option
(visible text mentioning 8, 10 or 12), else the first option if any. -/
def interpretCapacityRequirement (response : String) (avail : List String) :
    Option String :=
  if avail.contains response then some response
  else
    match avail.find? (fun o => strContains (pyLower response) (pyLower o)) with
    | some o => some o
    | none =>
      match avail.find? (fun o =>
          ["8", "10", "12"].any (fun sz => strContains sz (pyLower o))) with
      | some o => some o
      | none => avail.head?

end RoomBooking

open RoomBooking

/-- Claim C3: the submission classifier is total, returns exactly one of the
four tags, and assigns them by first match in the priority order success
keywords, then search-result keywords, then error keywords; a page containing
both a success indicator and the word error is classified booking_success, a
page with an error keyword but no higher-priority indicator is classified
error, and a page matching no keyword set is classified unknown. -/
theorem c3_classifier_priority :
    (∀ p, hasSuccessIndicator p = true → classifyResponse p = .booking_success) ∧
    (∀ p, hasSuccessIndicator p = false → hasSearchIndicator p = true →
      classifyResponse p = .search_results) ∧
    (∀ p, hasSuccessIndicator p = false → hasSearchIndicator p = false →
      hasErrorKeyword p = true → classifyResponse p = .error) ∧
    (∀ p, hasSuccessIndicator p = false → hasSearchIndicator p = false →
      hasErrorKeyword p = false → classifyResponse p = .unknown) ∧
    classifyResponse "Your booking confirmed. (footer: report an error)" =
      .booking_success := by
  refine ⟨?_, ?_, ?_, ?_, ?_⟩
  · intro p h
    simp only [classifyResponse, hasSuccessIndicator] at *
    simp [h]
  · intro p hs hr
    simp only [classifyResponse, hasSuccessIndicator, hasSearchIndicator] at *
    simp [hs, hr]
  · intro p hs hr he
    simp only [classifyResponse, hasSuccessIndicator, hasSearchIndicator,
      hasErrorKeyword] at *
    simp [hs, hr, he]
  · intro p hs hr he
    simp only [classifyResponse, hasSuccessIndicator, hasSearchIndicator,
      hasErrorKeyword] at *
    simp [hs, hr, he]
  · decide

/-- Witness for C3: a concrete page containing both a success indicator and
the word error is classified booking_success by the first conjunct. -/
theorem c3_classifier_priority_witness :
    classifyResponse "room reserved successfully despite an error banner" =
      .booking_success :=
  c3_classifier_priority.1 "room reserved successfully despite an error banner"
    (by decide)

/-- Claim C9: the value returned by the dropdown matcher (and by the capacity
interpreter) is either none or an element of the supplied candidate list: the
raw model text is accepted only verbatim, as the sentinel NONE, or replaced by
a listed option. -/
theorem c9_dropdown_output_validated :
    (∀ (r : String) (opts : List String) (x : String),
      matchDropdownOptions r opts = some x → x ∈ opts) ∧
    (∀ (r : String) (opts : List String) (x : String),
      interpretCapacityRequirement r opts = some x → x ∈ opts) := by
  constructor
  · intro r opts x h
    simp only [matchDropdownOptions] at h
    split at h
    · rename_i hmem
      cases h
      exact List.mem_of_elem_eq_true hmem
    · split at h
      · exact absurd h (by simp)
      · exact List.mem_of_find?_eq_some h
  · intro r opts x h
    simp only [interpretCapacityRequirement] at h
    split at h
    · rename_i hmem
      cases h
      exact List.mem_of_elem_eq_true hmem
    · split at h
      · rename_i o ho
        cases h
        exact List.mem_of_find?_eq_some ho
      · split at h
        · rename_i o ho
          cases h
          exact List.mem_of_find?_eq_some ho
        · cases opts with
          | nil => simp [List.head?] at h
          | cons a t =>
            simp only [List.head?, Option.some.injEq] at h
            simp [← h]

/-- Witness for C9: at a concrete response and candidate list the matcher
returns a listed option, and the theorem places it in the list. -/
theorem c9_dropdown_output_validated_witness :
    "Room A (Projector)" ∈ ["Room A (Projector)", "Room B"] :=
  c9_dropdown_output_validated.1 "room a" ["Room A (Projector)", "Room B"]
    "Room A (Projector)" (by decide)

namespace RoomBooking

/-! ### Field mapper (`FormInspector.analyze_and_map_fields`)

The inventory entry records the attributes the mapper reads; attributes the
mapper never consults (current value, required flag, the live element handle,
preceding-sibling text) are omitted.  `options` is empty for non-selects,
matching the falsiness of both a missing key and an empty option list. -/

structure FieldInfo where
  tag : String
  type : String
  name : Option String := none
  id : Option String := none
  placeholder : Option String := none
  label : Option String := none
  cls : Option String := none
  parentText : Option String := none
  options : List String := []
deriving DecidableEq, Repr

/-- A logical requirement pattern: keywords and accepted type attributes. -/
structure FieldPattern where
  keywords : List String
  types : List String
deriving DecidableEq, Repr

/-- The `date` entry of `field_patterns`. -/
def datePattern : FieldPattern :=
  ⟨["date", "day", "when", "calendar"], ["date", "text"]⟩

/-- The `start_time` entry of `field_patterns`. -/
def startTimePattern : FieldPattern :=
  ⟨["start", "from", "begin", "starting"], ["time", "select", "text"]⟩

/-- The `end_time` entry of `field_patterns`. -/
def endTimePattern : FieldPattern :=
  ⟨["end", "to", "until", "ending", "finish"], ["time", "select", "text"]⟩

/-- The `duration` entry of `field_patterns`. -/
def durationPattern : FieldPattern :=
  ⟨["duration", "length", "hours", "minutes"], ["select", "text", "number"]⟩

/-- The `capacity` entry of `field_patterns`. -/
def capacityPattern : FieldPattern :=
  ⟨["capacity", "people", "attendees", "size", "occupancy", "seats"],
   ["number", "select", "text"]⟩

/-- The `location` entry of `field_patterns`. -/
def locationPattern : FieldPattern :=
  ⟨["location", "building", "where", "place", "room"], ["select", "text"]⟩

/-- The `purpose` entry of `field_patterns`. -/
def purposePattern : FieldPattern :=
  ⟨["purpose", "reason", "description", "title", "event", "meeting"],
   ["text", "textarea"]⟩

/-- Embeds `FormInspector._get_field_text`: space-join of the truthy text attributes
in source order (name, id, placeholder, label, class, parent text). -/
def getFieldText (f : FieldInfo) : String :=
  joinSpace (([f.name, f.id, f.placeholder, f.label, f.cls,
    f.parentText].filterMap (fun o => if strTruthy o then o else none)))

/-- Embeds `FormInspector._calculate_match_score`: 0.3 is added per keyword found in
the lower-cased combined field text, 0.3 for an accepted type attribute, a
type-specific bonus (0.4 native date, 0.3 native time, 0.2 numeric input for
a pattern whose keywords include capacity), 0.2 once if a select's visible
option text contains a keyword; the result is capped at 1.0. -/
def calcMatchScore (f : FieldInfo) (fieldText : String) (p : FieldPattern) : ℚ :=
  let s0 : ℚ :=
    p.keywords.foldl (fun acc k => if strContains k fieldText then acc + 3/10 else acc) 0
  let s1 : ℚ := if p.types.contains f.type then s0 + 3/10 else s0
  let s2 : ℚ :=
    if f.type == "date" then s1 + 4/10
    else if f.type == "time" then s1 + 3/10
    else if f.type == "number" && p.keywords.contains "capacity" then s1 + 2/10
    else s1
  let s3 : ℚ :=
    if f.options.isEmpty then s2
    else if p.keywords.any (fun k => strContains k (pyLower (joinSpace f.options))) then
      s2 + 2/10
    else s2
  if s3 ≤ 1 then s3 else 1

/-- The score of a field against a pattern, with the combined field text
lower-cased as in `analyze_and_map_fields`. -/
def scoreAgainst (f : FieldInfo) (p : FieldPattern) : ℚ :=
  calcMatchScore f (pyLower (getFieldText f)) p

/-- The mapping test `score > 0.5` of `analyze_and_map_fields`. -/
def aboveThreshold (f : FieldInfo) (t : String) (p : FieldPattern) : Bool :=
  calcMatchScore f t p > 1/2

/-- The mapping built by `analyze_and_map_fields`: at most one inventory
element per logical requirement. -/
structure FieldMappings where
  date : Option FieldInfo := none
  start_time : Option FieldInfo := none
  end_time : Option FieldInfo := none
  duration : Option FieldInfo := none
  capacity : Option FieldInfo := none
  location : Option FieldInfo := none
  purpose : Option FieldInfo := none
deriving DecidableEq, Repr

/-- Keep an already-found requirement, else claim `f` when its score against
the pattern strictly exceeds the 0.5 threshold. -/
def updateReq (cur : Option FieldInfo) (f : FieldInfo) (t : String)
    (p : FieldPattern) : Option FieldInfo :=
  match cur with
  | some g => some g
  | none => if aboveThreshold f t p then some f else none

/-- One iteration of the outer loop of `analyze_and_map_fields`: the current
field is offered to every requirement not yet found. -/
def mapStep (st : FieldMappings) (f : FieldInfo) : FieldMappings :=
  let t := pyLower (getFieldText f)
  { date := updateReq st.date f t datePattern
    start_time := updateReq st.start_time f t startTimePattern
    end_time := updateReq st.end_time f t endTimePattern
    duration := updateReq st.duration f t durationPattern
    capacity := updateReq st.capacity f t capacityPattern
    location := updateReq st.location f t locationPattern
    purpose := updateReq st.purpose f t purposePattern }

/-- Embeds `FormInspector.analyze_and_map_fields` restricted to its mapping result. -/
def analyzeAndMapFields (fields : List FieldInfo) : FieldMappings :=
  fields.foldl mapStep {}

/-- First of two options, mirroring `pattern['found']` keeping its value. -/
def ofirst (a b : Option FieldInfo) : Option FieldInfo :=
  match a with
  | some x => some x
  | none => b

/-- The first inventory element scoring strictly above the threshold. -/
def firstAbove (fields : List FieldInfo) (p : FieldPattern) : Option FieldInfo :=
  fields.find? (fun f => aboveThreshold f (pyLower (getFieldText f)) p)

end RoomBooking

namespace RoomBooking

/-- Dropping the second alternative when it is `none` is the identity. -/
theorem ofirst_none (a : Option FieldInfo) : ofirst a none = a := by
  cases a <;> rfl

/-- Offering a field to one requirement slot commutes with searching the tail:
the slot keeps its value, else takes the first element above the threshold. -/
theorem ofirst_updateReq (a : Option FieldInfo) (f : FieldInfo)
    (t : List FieldInfo) (p : FieldPattern) :
    ofirst (updateReq a f (pyLower (getFieldText f)) p) (firstAbove t p) =
      ofirst a (firstAbove (f :: t) p) := by
  cases a with
  | some g => rfl
  | none =>
    simp only [updateReq, ofirst, firstAbove, List.find?]
    cases h : aboveThreshold f (pyLower (getFieldText f)) p <;> simp [h]

/-- The fold implementing `analyze_and_map_fields` computes, for every slot
independently, the already-claimed value or else the first element above
threshold in the remaining inventory. -/
theorem foldl_mapStep_eq (fields : List FieldInfo) : ∀ st : FieldMappings,
    fields.foldl mapStep st =
      { date := ofirst st.date (firstAbove fields datePattern)
        start_time := ofirst st.start_time (firstAbove fields startTimePattern)
        end_time := ofirst st.end_time (firstAbove fields endTimePattern)
        duration := ofirst st.duration (firstAbove fields durationPattern)
        capacity := ofirst st.capacity (firstAbove fields capacityPattern)
        location := ofirst st.location (firstAbove fields locationPattern)
        purpose := ofirst st.purpose (firstAbove fields purposePattern) } := by
  induction fields with
  | nil =>
    intro st
    simp only [List.foldl_nil, firstAbove, List.find?, ofirst_none]
  | cons f t ih =>
    intro st
    rw [List.foldl_cons, ih (mapStep st f)]
    simp only [mapStep, ofirst_updateReq]

end RoomBooking

/-- Claim C1 (amended): for every inventory, each logical requirement is
mapped to the first-encountered inventory element whose score against that
requirement strictly exceeds the 0.5 threshold; elements are not exclusively
claimed, so requirements are mapped independently of one another, and a
requirement with no element above threshold stays unmapped. -/
theorem c1_mapper_first_above_threshold (fields : List FieldInfo) :
    (analyzeAndMapFields fields).date = firstAbove fields datePattern ∧
    (analyzeAndMapFields fields).start_time = firstAbove fields startTimePattern ∧
    (analyzeAndMapFields fields).end_time = firstAbove fields endTimePattern ∧
    (analyzeAndMapFields fields).duration = firstAbove fields durationPattern ∧
    (analyzeAndMapFields fields).capacity = firstAbove fields capacityPattern ∧
    (analyzeAndMapFields fields).location = firstAbove fields locationPattern ∧
    (analyzeAndMapFields fields).purpose = firstAbove fields purposePattern := by
  have h := foldl_mapStep_eq fields ({} : FieldMappings)
  unfold analyzeAndMapFields
  rw [h]
  exact ⟨rfl, rfl, rfl, rfl, rfl, rfl, rfl⟩

/-- A plain text input named `date`: scores 0.6 against the date requirement. -/
def exTextDate : FieldInfo := { tag := "input", type := "text", name := some "date" }

/-- A native date input named `date`: scores 1.0 against the date requirement. -/
def exNativeDate : FieldInfo := { tag := "input", type := "date", name := some "date" }

/-- A native time input named `start_end`: scores 0.9 against both the
start_time and the end_time requirements. -/
def exStartEnd : FieldInfo := { tag := "input", type := "time", name := some "start_end" }

namespace RoomBooking

/-- Combined field text of `exTextDate`. -/
theorem text_exTextDate : pyLower (getFieldText exTextDate) = "date" := by decide

/-- Combined field text of `exNativeDate`. -/
theorem text_exNativeDate : pyLower (getFieldText exNativeDate) = "date" := by decide

/-- Combined field text of `exStartEnd`. -/
theorem text_exStartEnd : pyLower (getFieldText exStartEnd) = "start_end" := by decide

/-- Score of the plain text input named date against the date pattern. -/
theorem score_exTextDate_date : scoreAgainst exTextDate datePattern = 3/5 := by
  rw [scoreAgainst, text_exTextDate]
  have h1 : strContains "date" "date" = true := by decide
  have h2 : strContains "day" "date" = false := by decide
  have h3 : strContains "when" "date" = false := by decide
  have h4 : strContains "calendar" "date" = false := by decide
  simp only [calcMatchScore, datePattern, exTextDate, List.foldl, h1, h2, h3, h4]
  simp
  norm_num

/-- Score of the native date input against the date pattern. -/
theorem score_exNativeDate_date : scoreAgainst exNativeDate datePattern = 1 := by
  rw [scoreAgainst, text_exNativeDate]
  have h1 : strContains "date" "date" = true := by decide
  have h2 : strContains "day" "date" = false := by decide
  have h3 : strContains "when" "date" = false := by decide
  have h4 : strContains "calendar" "date" = false := by decide
  simp only [calcMatchScore, datePattern, exNativeDate, List.foldl, h1, h2, h3, h4]
  simp
  norm_num

/-- Score of the plain text input named date against the start_time pattern. -/
theorem score_exTextDate_start : scoreAgainst exTextDate startTimePattern = 3/10 := by
  rw [scoreAgainst, text_exTextDate]
  have h1 : strContains "start" "date" = false := by decide
  have h2 : strContains "from" "date" = false := by decide
  have h3 : strContains "begin" "date" = false := by decide
  have h4 : strContains "starting" "date" = false := by decide
  simp only [calcMatchScore, startTimePattern, exTextDate, List.foldl, h1, h2, h3, h4]
  simp
  norm_num

/-- Score of the native date input against the start_time pattern. -/
theorem score_exNativeDate_start : scoreAgainst exNativeDate startTimePattern = 2/5 := by
  rw [scoreAgainst, text_exNativeDate]
  have h1 : strContains "start" "date" = false := by decide
  have h2 : strContains "from" "date" = false := by decide
  have h3 : strContains "begin" "date" = false := by decide
  have h4 : strContains "starting" "date" = false := by decide
  simp only [calcMatchScore, startTimePattern, exNativeDate, List.foldl, h1, h2, h3, h4]
  simp
  norm_num

/-- Score of the native time input named start_end against start_time. -/
theorem score_exStartEnd_start : scoreAgainst exStartEnd startTimePattern = 9/10 := by
  rw [scoreAgainst, text_exStartEnd]
  have h1 : strContains "start" "start_end" = true := by decide
  have h2 : strContains "from" "start_end" = false := by decide
  have h3 : strContains "begin" "start_end" = false := by decide
  have h4 : strContains "starting" "start_end" = false := by decide
  simp only [calcMatchScore, startTimePattern, exStartEnd, List.foldl, h1, h2, h3, h4]
  simp
  norm_num

/-- Score of the plain text input named date against the end_time pattern. -/
theorem score_exTextDate_end : scoreAgainst exTextDate endTimePattern = 3/10 := by
  rw [scoreAgainst, text_exTextDate]
  have h1 : strContains "end" "date" = false := by decide
  have h2 : strContains "to" "date" = false := by decide
  have h3 : strContains "until" "date" = false := by decide
  have h4 : strContains "ending" "date" = false := by decide
  have h5 : strContains "finish" "date" = false := by decide
  simp only [calcMatchScore, endTimePattern, exTextDate, List.foldl, h1, h2, h3, h4, h5]
  simp
  norm_num

/-- Score of the native date input against the end_time pattern. -/
theorem score_exNativeDate_end : scoreAgainst exNativeDate endTimePattern = 2/5 := by
  rw [scoreAgainst, text_exNativeDate]
  have h1 : strContains "end" "date" = false := by decide
  have h2 : strContains "to" "date" = false := by decide
  have h3 : strContains "until" "date" = false := by decide
  have h4 : strContains "ending" "date" = false := by decide
  have h5 : strContains "finish" "date" = false := by decide
  simp only [calcMatchScore, endTimePattern, exNativeDate, List.foldl, h1, h2, h3, h4, h5]
  simp
  norm_num

/-- Score of the native time input named start_end against end_time. -/
theorem score_exStartEnd_end : scoreAgainst exStartEnd endTimePattern = 9/10 := by
  rw [scoreAgainst, text_exStartEnd]
  have h1 : strContains "end" "start_end" = true := by decide
  have h2 : strContains "to" "start_end" = false := by decide
  have h3 : strContains "until" "start_end" = false := by decide
  have h4 : strContains "ending" "start_end" = false := by decide
  have h5 : strContains "finish" "start_end" = false := by decide
  simp only [calcMatchScore, endTimePattern, exStartEnd, List.foldl, h1, h2, h3, h4, h5]
  simp
  norm_num

/-- The threshold test expressed through the score, for rewriting. -/
theorem aboveThreshold_eq (f : FieldInfo) (p : FieldPattern) :
    aboveThreshold f (pyLower (getFieldText f)) p = decide (scoreAgainst f p > 1/2) := rfl

end RoomBooking

/-- Counterexample to claim C1 as stated: in the inventory
[exTextDate, exNativeDate, exStartEnd] the date requirement is mapped to the
first element above threshold even though a later element scores strictly
higher, and one element is claimed by two requirements at once. -/
theorem c1_counterexample :
    (analyzeAndMapFields [exTextDate, exNativeDate, exStartEnd]).date =
      some exTextDate ∧
    scoreAgainst exNativeDate datePattern > scoreAgainst exTextDate datePattern ∧
    scoreAgainst exTextDate datePattern > 1/2 ∧
    (analyzeAndMapFields [exTextDate, exNativeDate, exStartEnd]).start_time =
      some exStartEnd ∧
    (analyzeAndMapFields [exTextDate, exNativeDate, exStartEnd]).end_time =
      some exStartEnd ∧
    exTextDate ≠ exNativeDate := by
  have hAd : aboveThreshold exTextDate (pyLower (getFieldText exTextDate))
      datePattern = true :=
    decide_eq_true (lt_of_lt_of_eq (by norm_num) score_exTextDate_date.symm)
  have hAs : aboveThreshold exTextDate (pyLower (getFieldText exTextDate))
      startTimePattern = false :=
    decide_eq_false (fun h =>
      absurd (lt_of_lt_of_eq h score_exTextDate_start) (by norm_num))
  have hBs : aboveThreshold exNativeDate (pyLower (getFieldText exNativeDate))
      startTimePattern = false :=
    decide_eq_false (fun h =>
      absurd (lt_of_lt_of_eq h score_exNativeDate_start) (by norm_num))
  have hEs : aboveThreshold exStartEnd (pyLower (getFieldText exStartEnd))
      startTimePattern = true :=
    decide_eq_true (lt_of_lt_of_eq (by norm_num) score_exStartEnd_start.symm)
  have hAe : aboveThreshold exTextDate (pyLower (getFieldText exTextDate))
      endTimePattern = false :=
    decide_eq_false (fun h =>
      absurd (lt_of_lt_of_eq h score_exTextDate_end) (by norm_num))
  have hBe : aboveThreshold exNativeDate (pyLower (getFieldText exNativeDate))
      endTimePattern = false :=
    decide_eq_false (fun h =>
      absurd (lt_of_lt_of_eq h score_exNativeDate_end) (by norm_num))
  have hEe : aboveThreshold exStartEnd (pyLower (getFieldText exStartEnd))
      endTimePattern = true :=
    decide_eq_true (lt_of_lt_of_eq (by norm_num) score_exStartEnd_end.symm)
  refine ⟨?_, ?_, ?_, ?_, ?_, ?_⟩
  · unfold analyzeAndMapFields
    rw [foldl_mapStep_eq]
    simp only [firstAbove, List.find?, hAd, ofirst]
  · rw [gt_iff_lt, score_exTextDate_date, score_exNativeDate_date]; norm_num
  · rw [gt_iff_lt, score_exTextDate_date]; norm_num
  · unfold analyzeAndMapFields
    rw [foldl_mapStep_eq]
    simp only [firstAbove, List.find?, hAs, hBs, hEs, ofirst]
  · unfold analyzeAndMapFields
    rw [foldl_mapStep_eq]
    simp only [firstAbove, List.find?, hAe, hBe, hEe, ofirst]
  · decide


namespace RoomBooking

/-- The scoring formula exactly as claim C2 words it: at most one 0.3
contribution for the keyword component (0.3 if ANY requirement keyword appears
in the combined text), plus the type, bonus and option components, capped at
1.0. -/
def claimFormulaScore (f : FieldInfo) (t : String) (p : FieldPattern) : ℚ :=
  let total : ℚ :=
    (if p.keywords.any (fun k => strContains k t) then 3/10 else 0) +
    (if p.types.contains f.type then 3/10 else 0) +
    (if f.type == "date" then 4/10
     else if f.type == "time" then 3/10
     else if f.type == "number" && p.keywords.contains "capacity" then 2/10
     else 0) +
    (if f.options.isEmpty then 0
     else if p.keywords.any (fun k => strContains k (pyLower (joinSpace f.options))) then
       2/10
     else 0)
  if total ≤ 1 then total else 1

/-- The corrected scoring formula: 0.3 is contributed per matching keyword
(the code's loop adds 0.3 for each keyword found), the other components are
as the claim states, and the total is capped at 1.0. -/
def amendedFormulaScore (f : FieldInfo) (t : String) (p : FieldPattern) : ℚ :=
  let total : ℚ :=
    3/10 * (p.keywords.countP (fun k => strContains k t) : ℚ) +
    (if p.types.contains f.type then 3/10 else 0) +
    (if f.type == "date" then 4/10
     else if f.type == "time" then 3/10
     else if f.type == "number" && p.keywords.contains "capacity" then 2/10
     else 0) +
    (if f.options.isEmpty then 0
     else if p.keywords.any (fun k => strContains k (pyLower (joinSpace f.options))) then
       2/10
     else 0)
  if total ≤ 1 then total else 1

/-- The keyword loop of `_calculate_match_score` accumulates one fixed
increment per keyword satisfying the test. -/
theorem foldl_add_ite_count (c : ℚ) (q : String → Bool) (l : List String) :
    ∀ a : ℚ, l.foldl (fun acc k => if q k then acc + c else acc) a =
      a + c * l.countP q := by
  induction l with
  | nil => intro a; simp
  | cons k t ih =>
    intro a
    rw [List.foldl_cons, List.countP_cons]
    by_cases h : q k
    · simp only [h, if_true, ih]
      push_cast [h]
      ring
    · simp only [h, if_false, ih]
      push_cast [h]
      ring

/-- A checkbox input named start_from: two start_time keywords occur in the
combined text, so the code scores it 0.6 while the claim formula yields 0.3. -/
def exStartFrom : FieldInfo :=
  { tag := "input", type := "checkbox", name := some "start_from" }

/-- Combined field text of `exStartFrom`. -/
theorem text_exStartFrom : pyLower (getFieldText exStartFrom) = "start_from" := by
  decide

/-- Score of the checkbox named start_from against start_time. -/
theorem score_exStartFrom_start : scoreAgainst exStartFrom startTimePattern = 3/5 := by
  rw [scoreAgainst, text_exStartFrom]
  have h1 : strContains "start" "start_from" = true := by decide
  have h2 : strContains "from" "start_from" = true := by decide
  have h3 : strContains "begin" "start_from" = false := by decide
  have h4 : strContains "starting" "start_from" = false := by decide
  simp only [calcMatchScore, startTimePattern, exStartFrom, List.foldl, h1, h2, h3, h4]
  simp
  norm_num

/-- Claim-formula score of the checkbox named start_from against start_time. -/
theorem claim_score_exStartFrom_start :
    claimFormulaScore exStartFrom (pyLower (getFieldText exStartFrom))
      startTimePattern = 3/10 := by
  rw [text_exStartFrom]
  have h1 : strContains "start" "start_from" = true := by decide
  simp only [claimFormulaScore, startTimePattern, exStartFrom, List.any, h1]
  simp
  norm_num

end RoomBooking

/-- Counterexample to claim C2 as stated: the keyword component of the score
is not 0.3-if-any-keyword: the code adds 0.3 for each of the two start_time
keywords occurring in the text of `exStartFrom`, so the computed score 0.6
differs from the claim formula value 0.3 at this concrete input. -/
theorem c2_score_counterexample :
    scoreAgainst exStartFrom startTimePattern = 3/5 ∧
    claimFormulaScore exStartFrom (pyLower (getFieldText exStartFrom))
      startTimePattern = 3/10 ∧
    scoreAgainst exStartFrom startTimePattern ≠
      claimFormulaScore exStartFrom (pyLower (getFieldText exStartFrom))
        startTimePattern := by
  refine ⟨score_exStartFrom_start, claim_score_exStartFrom_start, ?_⟩
  rw [score_exStartFrom_start, claim_score_exStartFrom_start]
  norm_num

/-- Claim C2 (amended): for every element, field text and requirement
pattern, the score equals the sum of 0.3 per requirement keyword appearing in
the combined text, plus 0.3 if the element type is accepted, plus the
type-specific bonus (0.4 native date, 0.3 native time, 0.2 numeric input for
the capacity requirement), plus 0.2 at most once for keyword-matching select
option text, capped at 1.0; and the score always lies in the interval
from 0 to 1. -/
theorem c2_score_amended (f : FieldInfo) (t : String) (p : FieldPattern) :
    calcMatchScore f t p = amendedFormulaScore f t p ∧
    0 ≤ calcMatchScore f t p ∧ calcMatchScore f t p ≤ 1 := by
  have key : ∀ S T : ℚ, S = T → (if S ≤ 1 then S else 1) = (if T ≤ 1 then T else 1) := by
    intro S T h
    rw [h]
  have heq : calcMatchScore f t p = amendedFormulaScore f t p := by
    simp only [calcMatchScore, amendedFormulaScore, foldl_add_ite_count]
    refine key _ _ ?_
    split_ifs <;> ring
  have cap_nonneg : ∀ S : ℚ, 0 ≤ S → 0 ≤ (if S ≤ 1 then S else 1) := by
    intro S hS
    split_ifs
    · exact hS
    · norm_num
  have cap_le : ∀ S : ℚ, (if S ≤ 1 then S else 1) ≤ 1 := by
    intro S
    split_ifs with h
    · exact h
    · norm_num
  refine ⟨heq, ?_, ?_⟩
  · rw [heq]
    simp only [amendedFormulaScore]
    apply cap_nonneg
    split_ifs <;> positivity
  · rw [heq]
    simp only [amendedFormulaScore]
    apply cap_le

namespace RoomBooking

/-! ### Date and time machinery shared by `test_smart_booking.py` and
`test_form_inspector.py`

`datetime.strptime` is modelled per format string following CPython's
`_strptime` regexes: each numeric directive admits the one- and two-digit
alternatives of its regex (with the two-digit alternative preferred, as the
regex alternation orders them), a literal space matches one or more
whitespace characters, matching is case-insensitive (inputs are lower-cased
before name matching), the whole string must be consumed, and the final
`datetime` construction checks calendar validity. -/

/-- Value of an ASCII digit character. -/
def digitVal (c : Char) : Nat := c.toNat - 48

/-- The ASCII digit character of `n < 10`. -/
def digitChar (n : Nat) : Char := Char.ofNat (48 + n)

/-- Python regex whitespace class. -/
def isSpaceChar (c : Char) : Bool :=
  c == ' ' || c == '\t' || c == '\n' || c == '\r' || c == '\x0b' || c == '\x0c'

/-- Drop a maximal run of whitespace. -/
def dropWs : List Char → List Char
  | [] => []
  | c :: r => if isSpaceChar c then dropWs r else c :: r

/-- One-or-more whitespace, as a literal space in a strptime format. -/
def ws1 : List Char → Option (List Char)
  | [] => none
  | c :: r => if isSpaceChar c then some (dropWs r) else none

/-- A literal character of a strptime format. -/
def litCh (c : Char) : List Char → Option (List Char)
  | [] => none
  | a :: r => if a == c then some r else none

/-- Require the whole input to be consumed. -/
def expectEnd : List Char → Option Unit
  | [] => some ()
  | _ :: _ => none

/-- Strip a literal word, else fail. -/
def stripLit : List Char → List Char → Option (List Char)
  | [], l => some l
  | _ :: _, [] => none
  | a :: as, b :: bs => if a == b then stripLit as bs else none

/-- The regex digit class, ASCII 0-9 by code point. -/
def isDig (c : Char) : Bool := 48 ≤ c.toNat && c.toNat ≤ 57

/-- A numeric strptime field admitting a two-digit or a one-digit match, the
two-digit alternative preferred and each constrained to its regex value set.
Committing to a valid two-digit match is equivalent to the regex backtracking
here because every following format token rejects a digit. -/
def numField (valid2 valid1 : Nat → Bool) : List Char → Option (Nat × List Char)
  | c1 :: c2 :: r =>
    if isDig c1 && isDig c2 && valid2 (digitVal c1 * 10 + digitVal c2) then
      some (digitVal c1 * 10 + digitVal c2, r)
    else if isDig c1 && valid1 (digitVal c1) then some (digitVal c1, c2 :: r)
    else none
  | [c1] => if isDig c1 && valid1 (digitVal c1) then some (digitVal c1, []) else none
  | [] => none

/-- Directive `%m`: two digits in 01..12, or one digit in 1..9. -/
def monthField : List Char → Option (Nat × List Char) :=
  numField (fun v => 1 ≤ v && v ≤ 12) (fun v => 1 ≤ v)

/-- Directive `%d`: two digits in 01..31, or one digit in 1..9. -/
def dayField : List Char → Option (Nat × List Char) :=
  numField (fun v => 1 ≤ v && v ≤ 31) (fun v => 1 ≤ v)

/-- Directive `%H`: two digits in 00..23, or one digit. -/
def hour24Field : List Char → Option (Nat × List Char) :=
  numField (fun v => v ≤ 23) (fun _ => true)

/-- Directive `%I`: two digits in 01..12, or one digit in 1..9. -/
def hour12Field : List Char → Option (Nat × List Char) :=
  numField (fun v => 1 ≤ v && v ≤ 12) (fun v => 1 ≤ v)

/-- Directive `%M`: two digits in 00..59, or one digit. -/
def minuteField : List Char → Option (Nat × List Char) :=
  numField (fun v => v ≤ 59) (fun _ => true)

/-- Directive `%Y`: exactly four digits. -/
def year4 : List Char → Option (Nat × List Char)
  | a :: b :: c :: d :: r =>
    if isDig a && isDig b && isDig c && isDig d then
      some (((digitVal a * 10 + digitVal b) * 10 + digitVal c) * 10 + digitVal d, r)
    else none
  | _ => none

/-- Directive `%p` on lower-cased input; the boolean is true for pm. -/
def parseAmPm (l : List Char) : Option (Bool × List Char) :=
  match stripLit "am".data l with
  | some r => some (false, r)
  | none =>
    match stripLit "pm".data l with
    | some r => some (true, r)
    | none => none

/-- Directive `%B`: full month names, lower-cased. -/
def monthNamesFull : List (String × Nat) :=
  [("january", 1), ("february", 2), ("march", 3), ("april", 4), ("may", 5),
   ("june", 6), ("july", 7), ("august", 8), ("september", 9), ("october", 10),
   ("november", 11), ("december", 12)]

/-- Directive `%b`: abbreviated month names, lower-cased. -/
def monthNamesAbbr : List (String × Nat) :=
  [("jan", 1), ("feb", 2), ("mar", 3), ("apr", 4), ("may", 5), ("jun", 6),
   ("jul", 7), ("aug", 8), ("sep", 9), ("oct", 10), ("nov", 11), ("dec", 12)]

/-- Match one month name from a table; no table entry is a prefix of another,
so the alternation order is immaterial. -/
def matchMonthName : List (String × Nat) → List Char → Option (Nat × List Char)
  | [], _ => none
  | (nm, v) :: rest, l =>
    match stripLit nm.data l with
    | some r => some (v, r)
    | none => matchMonthName rest l

/-- Gregorian leap year, as `datetime` uses. -/
def isLeapYear (y : Nat) : Bool :=
  y % 4 == 0 && (y % 100 != 0 || y % 400 == 0)

/-- Days of month `m` of year `y`. -/
def daysInMonth (y m : Nat) : Nat :=
  if m == 2 then (if isLeapYear y then 29 else 28)
  else if m == 4 || m == 6 || m == 9 || m == 11 then 30
  else 31

/-- Validity of a `datetime.date`: year in MINYEAR..MAXYEAR and a real
calendar day. -/
def validDate (y m d : Nat) : Bool :=
  1 ≤ y && y ≤ 9999 && 1 ≤ m && m ≤ 12 && 1 ≤ d && d ≤ daysInMonth y m

/-- The seven formats tried by both `normalize_date` implementations, in
source order. -/
inductive DateFmt where
  | ymd
  | mdySlash
  | mdyDash
  | bigBdY
  | bigBd
  | bdY
  | bd
deriving DecidableEq, Repr

/-- Structural parse of one date format on lower-cased input, before the
`datetime` validity check; year-less formats default the year to 1900. -/
def rawParse : DateFmt → List Char → Option (Nat × Nat × Nat)
  | .ymd, l => do
    let (y, r) ← year4 l
    let r ← litCh '-' r
    let (m, r) ← monthField r
    let r ← litCh '-' r
    let (d, r) ← dayField r
    let _ ← expectEnd r
    pure (y, m, d)
  | .mdySlash, l => do
    let (m, r) ← monthField l
    let r ← litCh '/' r
    let (d, r) ← dayField r
    let r ← litCh '/' r
    let (y, r) ← year4 r
    let _ ← expectEnd r
    pure (y, m, d)
  | .mdyDash, l => do
    let (m, r) ← monthField l
    let r ← litCh '-' r
    let (d, r) ← dayField r
    let r ← litCh '-' r
    let (y, r) ← year4 r
    let _ ← expectEnd r
    pure (y, m, d)
  | .bigBdY, l => do
    let (m, r) ← matchMonthName monthNamesFull l
    let r ← ws1 r
    let (d, r) ← dayField r
    let r ← litCh ',' r
    let r ← ws1 r
    let (y, r) ← year4 r
    let _ ← expectEnd r
    pure (y, m, d)
  | .bigBd, l => do
    let (m, r) ← matchMonthName monthNamesFull l
    let r ← ws1 r
    let (d, r) ← dayField r
    let _ ← expectEnd r
    pure (1900, m, d)
  | .bdY, l => do
    let (m, r) ← matchMonthName monthNamesAbbr l
    let r ← ws1 r
    let (d, r) ← dayField r
    let r ← litCh ',' r
    let r ← ws1 r
    let (y, r) ← year4 r
    let _ ← expectEnd r
    pure (y, m, d)
  | .bd, l => do
    let (m, r) ← matchMonthName monthNamesAbbr l
    let r ← ws1 r
    let (d, r) ← dayField r
    let _ ← expectEnd r
    pure (1900, m, d)

/-- The format list of `normalize_date`, in source order. -/
def dateFormats : List DateFmt :=
  [.ymd, .mdySlash, .mdyDash, .bigBdY, .bigBd, .bdY, .bd]

/-- The clock at the moment `datetime.now()` is read: calendar date plus
minutes past midnight (a parsed date carries time 00:00, so a comparison with
now only needs whether now's time-of-day is positive). -/
structure Now where
  year : Nat
  month : Nat
  day : Nat
  minuteOfDay : Nat
deriving DecidableEq, Repr

/-- Comparison `parsed_date < datetime.now()` where the parsed date is at midnight. -/
def dateBeforeNow (y m d : Nat) (n : Now) : Bool :=
  y < n.year ||
  (y == n.year && (m < n.month ||
    (m == n.month && (d < n.day || (d == n.day && 0 < n.minuteOfDay)))))

/-- Format `%02d` of a natural number. -/
def pad2 (n : Nat) : List Char :=
  if n < 100 then [digitChar (n / 10), digitChar (n % 10)]
  else Nat.toDigits 10 n

/-- Format `%04d` of a natural number. -/
def pad4 (n : Nat) : List Char :=
  if n < 10000 then
    [digitChar (n / 1000), digitChar (n / 100 % 10), digitChar (n / 10 % 10),
     digitChar (n % 10)]
  else Nat.toDigits 10 n

/-- Rendering `strftime("%Y-%m-%d")`. -/
def isoDate (y m d : Nat) : String :=
  ⟨pad4 y ++ '-' :: (pad2 m ++ '-' :: pad2 d)⟩

/-- Rendering of an hour and minute as the source f-string does. -/
def timeStr (h m : Nat) : String :=
  ⟨pad2 h ++ ':' :: pad2 m⟩

end RoomBooking

namespace RoomBooking

/-- One iteration of the format loop of the smart-booking `normalize_date`:
parse, construct the date (validity), substitute the current year for the
1900 epoch placeholder, then, while the date is strictly before now,
substitute the current year and then the next year; a `replace` that would
produce an invalid date (Feb 29 of a non-leap year) raises inside the loop's
try and the next format is tried. -/
def tryDateFormat (now : Now) (fmt : DateFmt) (l : List Char) : Option String :=
  match rawParse fmt l with
  | none => none
  | some (y0, m, d) =>
    if !validDate y0 m d then none
    else
      let y1 := if y0 == 1900 then now.year else y0
      if y0 == 1900 && !validDate y1 m d then none
      else if dateBeforeNow y1 m d now then
        if !validDate now.year m d then none
        else if dateBeforeNow now.year m d now then
          if !validDate (now.year + 1) m d then none
          else some (isoDate (now.year + 1) m d)
        else some (isoDate now.year m d)
      else some (isoDate y1 m d)

/-- The length-10 well-formed-ISO pre-check of the smart `normalize_date`:
length 10, exactly two dashes, and `strptime(s, "%Y-%m-%d")` succeeds. -/
def isoPassthrough (s : String) : Bool :=
  s.length == 10 && s.data.count '-' == 2 &&
    (match rawParse .ymd s.data with
     | some (y, m, d) => validDate y m d
     | none => false)

/-- Embeds `normalize_date` of `test_smart_booking.py`: None, empty, null and none
inputs yield today; a well-formed ISO string passes through verbatim; else
the first format whose parse and year substitutions succeed wins; else
today. -/
def normalizeDateSmart (now : Now) (os : Option String) : String :=
  match os with
  | none => isoDate now.year now.month now.day
  | some s =>
    if s.data.isEmpty || pyLower s == "null" || pyLower s == "none" then
      isoDate now.year now.month now.day
    else if isoPassthrough s then s
    else
      match dateFormats.findSome? (fun fmt => tryDateFormat now fmt (s.data.map lowerChar)) with
      | some out => out
      | none => isoDate now.year now.month now.day

/-- One iteration of the format loop of the form-inspector `normalize_date`:
as the smart variant but with no before-now substitution at all. -/
def tryDateFormatInspector (now : Now) (fmt : DateFmt) (l : List Char) :
    Option String :=
  match rawParse fmt l with
  | none => none
  | some (y0, m, d) =>
    if !validDate y0 m d then none
    else
      let y1 := if y0 == 1900 then now.year else y0
      if y0 == 1900 && !validDate y1 m d then none
      else some (isoDate y1 m d)

/-- Embeds `normalize_date` of `test_form_inspector.py`: no ISO pre-check and no
roll-forward; 1900 still becomes the current year. -/
def normalizeDateInspector (now : Now) (os : Option String) : String :=
  match os with
  | none => isoDate now.year now.month now.day
  | some s =>
    if s.data.isEmpty then isoDate now.year now.month now.day
    else
      match dateFormats.findSome?
          (fun fmt => tryDateFormatInspector now fmt (s.data.map lowerChar)) with
      | some out => out
      | none => isoDate now.year now.month now.day

/-- The four time formats of the smart `normalize_time`, in source order. -/
inductive TimeFmt where
  | hm
  | imp
  | ip
  | h24
deriving DecidableEq, Repr

/-- strptime of one time format on lower-cased input, including the 12-hour
to 24-hour conversion for `%I %p`. -/
def rawParseTime : TimeFmt → List Char → Option (Nat × Nat)
  | .hm, l => do
    let (h, r) ← hour24Field l
    let r ← litCh ':' r
    let (m, r) ← minuteField r
    let _ ← expectEnd r
    pure (h, m)
  | .imp, l => do
    let (h, r) ← hour12Field l
    let r ← litCh ':' r
    let (m, r) ← minuteField r
    let r ← ws1 r
    let (pm, r) ← parseAmPm r
    let _ ← expectEnd r
    pure (if pm then (if h == 12 then 12 else h + 12) else (if h == 12 then 0 else h), m)
  | .ip, l => do
    let (h, r) ← hour12Field l
    let r ← ws1 r
    let (pm, r) ← parseAmPm r
    let _ ← expectEnd r
    pure (if pm then (if h == 12 then 12 else h + 12) else (if h == 12 then 0 else h), 0)
  | .h24, l => do
    let (h, r) ← hour24Field l
    let _ ← expectEnd r
    pure (h, 0)

/-- The fixed-format path of the smart `normalize_time`. -/
def strptimeTimeHM (s : String) : Option (Nat × Nat) :=
  [TimeFmt.hm, .imp, .ip, .h24].findSome?
    (fun f => rawParseTime f (s.data.map lowerChar))

/-- First group of the fallback regex: one or two digits, greedy. -/
def fbTwoDigits (c1 : Char) (rest : List Char) : Nat × List Char :=
  match rest with
  | c2 :: r2 =>
    if isDig c2 then (digitVal c1 * 10 + digitVal c2, r2)
    else (digitVal c1, c2 :: r2)
  | [] => (digitVal c1, [])

/-- The optional colon of the fallback regex. -/
def fbSkipColon : List Char → List Char
  | ':' :: r => r
  | l => l

/-- Second group of the fallback regex: zero to two digits, greedy; an empty
group yields minute 0 as `int(g) if g else 0` does. -/
def fbMinutes : List Char → Nat × List Char
  | a :: b :: r =>
    if isDig a && isDig b then (digitVal a * 10 + digitVal b, r)
    else if isDig a then (digitVal a, b :: r)
    else (0, a :: b :: r)
  | [a] => if isDig a then (digitVal a, []) else (0, [a])
  | [] => (0, [])

/-- The optional meridiem group and the source's hour adjustment. -/
def fbAdjustHour (r : List Char) (hv : Nat) : Nat :=
  match parseAmPm r with
  | some (true, _) => if hv != 12 then hv + 12 else hv
  | some (false, _) => if hv == 12 then 0 else hv
  | none => hv

/-- A match of the fallback regex `(\d{1,2}):?(\d{0,2})\s*(am|pm)?` at the
head of the input: it succeeds exactly when the head is a digit, and every
greedy choice is final because everything after the first group is optional.
Returns the adjusted 24-hour hour and the minute. -/
def fallbackAt (l : List Char) : Option (Nat × Nat) :=
  match l with
  | [] => none
  | c1 :: rest =>
    if !isDig c1 then none
    else
      let g1 := fbTwoDigits c1 rest
      let g2 := fbMinutes (fbSkipColon g1.2)
      some (fbAdjustHour (dropWs g2.2) g1.1, g2.1)

/-- Search of the fallback time regex: first matching position wins. -/
def fallbackSearch : List Char → Option (Nat × Nat)
  | [] => none
  | c :: r =>
    match fallbackAt (c :: r) with
    | some x => some x
    | none => fallbackSearch r

/-- Embeds `normalize_time` of `test_smart_booking.py`. -/
def normalizeTimeSmart (os : Option String) : String :=
  match os with
  | none => "10:00"
  | some s =>
    if s.data.isEmpty then "10:00"
    else
      match strptimeTimeHM s with
      | some (h, m) => timeStr h m
      | none =>
        match fallbackSearch (s.data.map lowerChar) with
        | some (h, m) => timeStr h m
        | none => "10:00"

/-- Embeds `normalize_time` of `test_form_inspector.py`: three formats, no `%H`,
no regex fallback. -/
def normalizeTimeInspector (os : Option String) : String :=
  match os with
  | none => "10:00"
  | some s =>
    if s.data.isEmpty then "10:00"
    else
      match [TimeFmt.hm, .imp, .ip].findSome?
          (fun f => rawParseTime f (s.data.map lowerChar)) with
      | some (h, m) => timeStr h m
      | none => "10:00"

end RoomBooking

namespace RoomBooking

/-- Values of the maximal digit runs in a string, in order, as
`re.findall` of one-or-more-digits returns them. -/
def digitRunsAux : List Char → Option Nat → List Nat
  | [], none => []
  | [], some v => [v]
  | c :: r, none =>
    if isDig c then digitRunsAux r (some (digitVal c)) else digitRunsAux r none
  | c :: r, some v =>
    if isDig c then digitRunsAux r (some (v * 10 + digitVal c))
    else v :: digitRunsAux r none

/-- The first number occurring in a string (first maximal digit run). -/
def firstNumber (s : String) : Option Nat :=
  (digitRunsAux s.data none).head?

/-- Python `int()` applied to one piece of `start_time.split(':')`: optional
surrounding whitespace, optional sign, one or more digits. -/
def pyIntOfStr (s : String) : Option Int :=
  let l := dropWs s.data
  let (neg, l2) :=
    match l with
    | '-' :: r => (true, r)
    | '+' :: r => (false, r)
    | _ => (false, l)
  let (v, r) :=
    match l2 with
    | c :: r2 =>
      if isDig c then
        let p := digitRunsAux (c :: r2) none
        -- first digit run plus rest after it
        (p.head?, (c :: r2).dropWhile isDig)
      else (none, c :: r2)
    | [] => (none, ([] : List Char))
  match v with
  | none => none
  | some n => if (dropWs r).isEmpty then some (if neg then -(n : Int) else (n : Int)) else none

/-- Python `str.split(sep)` on lists of characters. -/
def splitChAux (sep : Char) : List Char → List Char → List (List Char)
  | [], acc => [acc.reverse]
  | c :: r, acc =>
    if c == sep then acc.reverse :: splitChAux sep r []
    else splitChAux sep r (c :: acc)

/-- Evaluation of `map(int, start_time.split(':'))` unpacked into exactly two values. -/
def parseHMStrict (s : String) : Option (Int × Int) :=
  match (splitChAux ':' s.data []).map (fun p => pyIntOfStr ⟨p⟩) with
  | [some a, some b] => some (a, b)
  | _ => none

/-- Embeds `calculate_end_time` of `test_smart_booking.py`: the duration defaults to
60 minutes, a `minute` keyword selects the first number as minutes, else an
`hour` keyword selects the first number times 60; the sum of start and
duration is rendered modulo 24 hours (Python floor division and nonnegative
remainder agree with Int division and remainder for the positive divisors
60 and 24).  An unparseable start time reaches the
handler, which reparses the same start time and fails again, yielding
`"11:00"`. -/
def calculateEndTimeSmart (startTime durationString : String) : String :=
  match parseHMStrict startTime with
  | none => "11:00"
  | some (sh, sm) =>
    let durationMinutes : Int :=
      if strContains "minute" durationString then
        match firstNumber durationString with
        | some n => (n : Int)
        | none => 60
      else if strContains "hour" durationString then
        match firstNumber durationString with
        | some n => (n : Int) * 60
        | none => 60
      else 60
    let total : Int := sh * 60 + sm + durationMinutes
    timeStr (total / 60 % 24).toNat (total % 60).toNat

/-- Embeds `calculate_end_time` of `test_form_inspector.py`: the `hour` keyword is
tested before `minute`, and a failure returns `"11:00"` directly. -/
def calculateEndTimeInspector (startTime durationString : String) : String :=
  match parseHMStrict startTime with
  | none => "11:00"
  | some (sh, sm) =>
    let durationMinutes : Int :=
      if strContains "hour" durationString then
        match firstNumber durationString with
        | some n => (n : Int) * 60
        | none => 60
      else if strContains "minute" durationString then
        match firstNumber durationString with
        | some n => (n : Int)
        | none => 60
      else 60
    let total : Int := sh * 60 + sm + durationMinutes
    timeStr (total / 60 % 24).toNat (total % 60).toNat

/-! ### Time-range patterns of the smart criteria extractor -/

/-- Tail of range pattern 1 after both hours: optional whitespace then a
mandatory meridiem. -/
def p1Tail2 (h1 h2 : Nat) (r : List Char) : Option (Nat × Nat × Bool) :=
  match parseAmPm (dropWs r) with
  | some (pm, _) => some (h1, h2, pm)
  | none => none

/-- Tail of range pattern 1 after the first hour: `\s*-\s*` then the second
one-or-two-digit group (two digits preferred, with backtracking), then the
meridiem tail. -/
def p1Tail1 (h1 : Nat) (r : List Char) : Option (Nat × Nat × Bool) :=
  match dropWs r with
  | '-' :: r2 =>
    (match dropWs r2 with
     | a :: b :: r4 =>
       if isDig a && isDig b then
         match p1Tail2 h1 (digitVal a * 10 + digitVal b) r4 with
         | some x => some x
         | none => p1Tail2 h1 (digitVal a) (b :: r4)
       else if isDig a then p1Tail2 h1 (digitVal a) (b :: r4)
       else none
     | [a] => if isDig a then p1Tail2 h1 (digitVal a) [] else none
     | [] => none)
  | _ => none

/-- Range pattern 1, `(\d{1,2})\s*-\s*(\d{1,2})\s*(am|pm)`, anchored at the
head of the input. -/
def p1At (l : List Char) : Option (Nat × Nat × Bool) :=
  match l with
  | a :: b :: r =>
    if isDig a && isDig b then
      match p1Tail1 (digitVal a * 10 + digitVal b) r with
      | some x => some x
      | none => p1Tail1 (digitVal a) (b :: r)
    else if isDig a then p1Tail1 (digitVal a) (b :: r)
    else none
  | [a] => if isDig a then p1Tail1 (digitVal a) [] else none
  | [] => none

/-- Search of range pattern 1. -/
def searchP1 : List Char → Option (Nat × Nat × Bool)
  | [] => none
  | c :: r =>
    match p1At (c :: r) with
    | some x => some x
    | none => searchP1 r

/-- Tail of range pattern 2 after the second hour group:
`:(\d{2})\s*(am|pm)`. -/
def p2Tail2 (r : List Char) : Bool :=
  match r with
  | ':' :: a :: b :: r2 =>
    if isDig a && isDig b then (parseAmPm (dropWs r2)).isSome else false
  | _ => false

/-- Second hour group of range pattern 2 with backtracking. -/
def p2Mid (r : List Char) : Bool :=
  match r with
  | a :: b :: r2 =>
    if isDig a && isDig b then p2Tail2 r2 || p2Tail2 (b :: r2)
    else if isDig a then p2Tail2 (b :: r2)
    else false
  | [a] => isDig a && p2Tail2 []
  | [] => false

/-- Tail of range pattern 2 after the first hour group:
`:(\d{2})\s*-\s*` then the second half. -/
def p2AfterFirst (r : List Char) : Bool :=
  match r with
  | ':' :: a :: b :: r2 =>
    if isDig a && isDig b then
      match dropWs r2 with
      | '-' :: r3 => p2Mid (dropWs r3)
      | _ => false
    else false
  | _ => false

/-- Range pattern 2, `(\d{1,2}):(\d{2})\s*-\s*(\d{1,2}):(\d{2})\s*(am|pm)`,
anchored at the head of the input. -/
def p2At (l : List Char) : Bool :=
  match l with
  | a :: b :: r =>
    if isDig a && isDig b then p2AfterFirst r || p2AfterFirst (b :: r)
    else if isDig a then p2AfterFirst (b :: r)
    else false
  | _ => false

/-- Search of range pattern 2. -/
def searchP2 : List Char → Bool
  | [] => false
  | c :: r => p2At (c :: r) || searchP2 r

/-- Trailing hour-meridiem of range pattern 3: `(\d{1,2})\s*(am|pm)`. -/
def p3End (r : List Char) : Bool :=
  match r with
  | a :: b :: r2 =>
    if isDig a && isDig b then
      (parseAmPm (dropWs r2)).isSome || (parseAmPm (dropWs (b :: r2))).isSome
    else if isDig a then (parseAmPm (dropWs (b :: r2))).isSome
    else false
  | _ => false

/-- Tail of range pattern 3 after the first hour:
`\s*(am|pm)\s*-\s*` then the trailing hour-meridiem. -/
def p3Mid (r : List Char) : Bool :=
  match parseAmPm (dropWs r) with
  | some (_, r2) =>
    (match dropWs r2 with
     | '-' :: r3 => p3End (dropWs r3)
     | _ => false)
  | none => false

/-- Range pattern 3, `(\d{1,2})\s*(am|pm)\s*-\s*(\d{1,2})\s*(am|pm)`,
anchored at the head of the input. -/
def p3At (l : List Char) : Bool :=
  match l with
  | a :: b :: r =>
    if isDig a && isDig b then p3Mid r || p3Mid (b :: r)
    else if isDig a then p3Mid (b :: r)
    else false
  | [a] => isDig a && p3Mid []
  | [] => false

/-- Search of range pattern 3. -/
def searchP3 : List Char → Bool
  | [] => false
  | c :: r => p3At (c :: r) || searchP3 r

end RoomBooking

namespace RoomBooking

/-- The maximal digit run starting with accumulated value `acc`. -/
def takeDigits (acc : Nat) : List Char → Nat × List Char
  | [] => (acc, [])
  | c :: r => if isDig c then takeDigits (acc * 10 + digitVal c) r else (acc, c :: r)

/-- The capacity pattern of the smart extractor,
`(\d+)\s*(?:people|attendees|participants)`, anchored at the head: a maximal
digit run, optional whitespace, then one of the three keywords.  No
backtracking is needed because a shorter digit run leaves a digit where a
keyword letter is required. -/
def capReqAt (l : List Char) : Option Nat :=
  match l with
  | [] => none
  | c :: r =>
    if isDig c then
      let (v, rest) := takeDigits (digitVal c) r
      let r2 := dropWs rest
      if (stripLit "people".data r2).isSome || (stripLit "attendees".data r2).isSome ||
          (stripLit "participants".data r2).isSome then
        some v
      else none
    else none

/-- Search of the capacity pattern over the lower-cased request. -/
def searchCapReq : List Char → Option Nat
  | [] => none
  | c :: r =>
    match capReqAt (c :: r) with
    | some v => some v
    | none => searchCapReq r

/-- The Python value found under the `capacity` key of the extracted
details: absent (or None), a string, or a number. -/
inductive PyCapacity where
  | absent
  | ofString (s : String)
  | ofInt (n : Int)
deriving DecidableEq, Repr

/-- Python truthiness of the capacity value: None, the empty string and the
number zero are falsy. -/
def capTruthy : PyCapacity → Bool
  | .absent => false
  | .ofString s => !s.data.isEmpty
  | .ofInt n => n != 0

/-- Record `ExtractedDetails`: the nullable field map produced by the intent
extractor.  `equipmentList` is `some l` when the value is a list (the key
defaulting to the empty list when absent) and `none` when a non-list value is
present; `purpose` is `none` when the key is absent. -/
structure ExtractedDetails where
  date : Option String := none
  start_time : Option String := none
  end_time : Option String := none
  duration : Option String := none
  capacity : PyCapacity := .absent
  location : Option String := none
  equipmentList : Option (List String) := some []
  purpose : Option String := none
deriving DecidableEq, Repr

/-- The criteria record built by the smart extractor; `capacity` is an
`Option` because the source initialises it to None. -/
structure Criteria where
  date : String
  start_time : String
  end_time : String
  capacity : Option Int
  location : Option String
  equipment : List String
deriving DecidableEq, Repr

/-- Embeds `extract_criteria_from_ai_response` of `test_smart_booking.py`.  Only
range pattern 1 can apply times: patterns 2 and 3 have five and four capture
groups, and the applying branch requires exactly three, so a match of those
patterns has no effect and the loop continues. -/
def extractCriteriaSmart (now : Now) (e : ExtractedDetails)
    (originalRequest : String) : Criteria :=
  let lreq := originalRequest.data.map lowerChar
  let dateV :=
    if strTruthy e.date then normalizeDateSmart now e.date
    else isoDate now.year now.month now.day
  let startEnd :=
    match searchP1 lreq with
    | some (h1, h2, pm) =>
      let se : Nat × Nat :=
        if pm && h1 != 12 then (h1 + 12, h2 + 12)
        else if !pm && h1 == 12 then (0, h2)
        else if !pm && h2 == 12 then (h1, 0)
        else (h1, h2)
      (timeStr se.1 0, timeStr se.2 0)
    | none =>
      if strTruthy e.start_time then
        let sv := normalizeTimeSmart e.start_time
        let ev :=
          if strTruthy e.end_time then normalizeTimeSmart e.end_time
          else if strTruthy e.duration then
            calculateEndTimeSmart sv (e.duration.getD "")
          else calculateEndTimeSmart sv "1 hour"
        (sv, ev)
      else ("10:00", "11:00")
  let capV : Option Int :=
    if capTruthy e.capacity then
      match e.capacity with
      | .ofString s => (firstNumber s).map (fun n => (n : Int))
      | .ofInt n => some n
      | .absent => none
    else
      match searchCapReq lreq with
      | some n => some (n : Int)
      | none => some 8
  { date := dateV
    start_time := startEnd.1
    end_time := startEnd.2
    capacity := capV
    location := e.location
    equipment := e.equipmentList.getD [] }

/-- The criteria record built by the form-inspector extractor: capacity is
initialised to 8 and only ever overwritten by a parsed number. -/
structure CriteriaInspector where
  date : String
  start_time : String
  end_time : String
  capacity : Int
  location : Option String
  purpose : String
deriving DecidableEq, Repr

/-- Embeds `extract_criteria_from_ai_response` of `test_form_inspector.py`. -/
def extractCriteriaInspector (now : Now) (e : ExtractedDetails) :
    CriteriaInspector :=
  let dateV :=
    if strTruthy e.date then normalizeDateInspector now e.date
    else isoDate now.year now.month now.day
  let startV :=
    if strTruthy e.start_time then normalizeTimeInspector e.start_time
    else "10:00"
  let endV :=
    if strTruthy e.duration then calculateEndTimeInspector startV (e.duration.getD "")
    else calculateEndTimeInspector startV "1 hour"
  let capV : Int :=
    if capTruthy e.capacity then
      match e.capacity with
      | .ofString s =>
        match firstNumber s with
        | some n => (n : Int)
        | none => 8
      | .ofInt n => n
      | .absent => 8
    else 8
  { date := dateV
    start_time := startV
    end_time := endV
    capacity := capV
    location := e.location
    purpose := e.purpose.getD "Meeting" }

end RoomBooking

open RoomBooking in
/-- Claim C4: the smart-booking extractor violates the never-null invariant:
an extracted capacity string containing no digit leaves the capacity field
None (the digit extraction is skipped and no default is assigned), while the
form-inspector variant of the same function keeps the documented default 8 —
evidence that the smart variant dropping the default is a slip. -/
theorem c4_capacity_left_null :
    (extractCriteriaSmart ⟨2026, 10, 12, 540⟩
        { capacity := .ofString "several people" } "book a meeting room").capacity
      = none ∧
    (extractCriteriaInspector ⟨2026, 10, 12, 540⟩
        { capacity := .ofString "several people" }).capacity = 8 := by
  exact ⟨by decide, by decide⟩

open RoomBooking in
/-- Claim C10: a time range written as two bare hours with one trailing
meridiem overrides the extracted start and end times for every extracted
record, while the other two recognized range shapes match their patterns but
are never applied (their capture-group count fails the three-group test), so
the times fall back to the extracted fields. -/
theorem c10_range_pattern_precedence :
    (∀ (now : Now) (e : ExtractedDetails),
      (extractCriteriaSmart now e "need 2-4 pm slot").start_time = "14:00" ∧
      (extractCriteriaSmart now e "need 2-4 pm slot").end_time = "16:00") ∧
    searchP1 (pyLower "book 10:00-11:00am").data = none ∧
    searchP2 (pyLower "book 10:00-11:00am").data = true ∧
    (extractCriteriaSmart ⟨2026, 10, 12, 540⟩ { start_time := some "3 pm" }
      "book 10:00-11:00am").start_time = "15:00" ∧
    (extractCriteriaSmart ⟨2026, 10, 12, 540⟩ { start_time := some "3 pm" }
      "book 10:00-11:00am").end_time = "16:00" ∧
    searchP1 (pyLower "book 10am-11am").data = none ∧
    searchP3 (pyLower "book 10am-11am").data = true ∧
    (extractCriteriaSmart ⟨2026, 10, 12, 540⟩ { start_time := some "3 pm" }
      "book 10am-11am").start_time = "15:00" ∧
    (extractCriteriaSmart ⟨2026, 10, 12, 540⟩ { start_time := some "3 pm" }
      "book 10am-11am").end_time = "16:00" := by
  refine ⟨fun now e => ⟨rfl, rfl⟩, ?_, ?_, ?_, ?_, ?_, ?_, ?_, ?_⟩ <;> decide

open RoomBooking in
/-- Counterexample to claim C5 as stated: the input 12/25/2020 parses to a
date strictly before now (December 25, 2020 before October 12, 2026), yet
normalize_date substitutes the current year, returning 2026-12-25 and not
next year's 2027-12-25 as the claim's roll-forward rule dictates. -/
theorem c5_counterexample :
    dateBeforeNow 2020 12 25 ⟨2026, 10, 12, 540⟩ = true ∧
    normalizeDateSmart ⟨2026, 10, 12, 540⟩ (some "12/25/2020") = "2026-12-25" ∧
    normalizeDateSmart ⟨2026, 10, 12, 540⟩ (some "12/25/2020") ≠
      isoDate 2027 12 25 := by
  refine ⟨?_, ?_, ?_⟩ <;> decide

namespace RoomBooking

/-- The duration rule exactly as claim C8 words it: the first number found in
the duration wins, and the hour keyword multiplies it by 60; 60 minutes only
when no number occurs. -/
def claimDuration (dur : String) : Nat :=
  match firstNumber dur with
  | some n => if strContains "hour" dur then n * 60 else n
  | none => 60

/-- The corrected duration rule: a number only counts with a unit keyword,
minute taking precedence over hour; otherwise the duration defaults to 60
minutes. -/
def amendedDuration (dur : String) : Nat :=
  if strContains "minute" dur then (firstNumber dur).getD 60
  else if strContains "hour" dur then ((firstNumber dur).map (fun n => n * 60)).getD 60
  else 60

end RoomBooking

open RoomBooking in
/-- Counterexample to claim C8 as stated: for the duration string 90 the
first number found is 90, so the claim demands 10:00 plus 90 minutes, 11:30;
the code only honours a number accompanied by a unit keyword and falls back
to the 60-minute default, returning 11:00. -/
theorem c8_counterexample :
    firstNumber "90" = some 90 ∧
    claimDuration "90" = 90 ∧
    timeStr ((10 * 60 + 0 + claimDuration "90") / 60 % 24)
        ((10 * 60 + 0 + claimDuration "90") % 60) = "11:30" ∧
    calculateEndTimeSmart "10:00" "90" = "11:00" ∧
    calculateEndTimeSmart "10:00" "90" ≠ "11:30" := by
  refine ⟨?_, ?_, ?_, ?_, ?_⟩ <;> decide

namespace RoomBooking

/-- Spec-side year substitution for the 1900 epoch placeholder, from the
amended claim wording: substitute the current year; if that produces an
invalid date the format fails. -/
def epochFixSpec (now : Now) (y m d : Nat) : Option (Nat × Nat × Nat) :=
  if y == 1900 then
    (if validDate now.year m d then some (now.year, m, d) else none)
  else some (y, m, d)

/-- Spec-side roll-forward, from the amended claim wording: when the date is
strictly before now substitute the current year, and only when the result is
still strictly before now substitute the next year; a substitution producing
an invalid date fails the format. -/
def rollForwardSpec (now : Now) (y m d : Nat) : Option (Nat × Nat × Nat) :=
  if dateBeforeNow y m d now then
    if validDate now.year m d then
      (if dateBeforeNow now.year m d now then
        (if validDate (now.year + 1) m d then some (now.year + 1, m, d) else none)
      else some (now.year, m, d))
    else none
  else some (y, m, d)

/-- Spec-side treatment of one format: parse, construct the date, fix the
epoch placeholder, roll forward. -/
def tryDateFormatSpec (now : Now) (fmt : DateFmt) (l : List Char) : Option String :=
  match rawParse fmt l with
  | none => none
  | some (y, m, d) =>
    if validDate y m d then
      (((epochFixSpec now y m d).bind
          (fun t => rollForwardSpec now t.1 t.2.1 t.2.2)).map
        (fun t => isoDate t.1 t.2.1 t.2.2))
    else none

/-- Spec-side normalize_date, from the amended claim wording: null-like input
yields today, a well-formed ISO string passes through verbatim, else the
first format whose parse and substitutions all succeed wins, else today. -/
def normalizeDateAmendedSpec (now : Now) (os : Option String) : String :=
  match os with
  | none => isoDate now.year now.month now.day
  | some s =>
    if s.data.isEmpty || pyLower s == "null" || pyLower s == "none" then
      isoDate now.year now.month now.day
    else if isoPassthrough s then s
    else
      match dateFormats.findSome?
          (fun fmt => tryDateFormatSpec now fmt (s.data.map lowerChar)) with
      | some out => out
      | none => isoDate now.year now.month now.day

/-- The per-format body of the source embedding agrees with the spec-side
composition of parse, epoch fix and two-stage roll-forward. -/
theorem tryDateFormat_eq_spec (now : Now) (fmt : DateFmt) (l : List Char) :
    tryDateFormat now fmt l = tryDateFormatSpec now fmt l := by
  unfold tryDateFormat tryDateFormatSpec epochFixSpec rollForwardSpec
  cases h : rawParse fmt l with
  | none => rfl
  | some t =>
    obtain ⟨y, m, d⟩ := t
    by_cases hv : validDate y m d
    · simp only [hv, Bool.not_true, if_false, if_true]
      by_cases h19 : y == 1900
      · simp only [h19, if_true, Bool.true_and]
        by_cases hvn : validDate now.year m d
        · simp only [hvn, Bool.not_true, if_false, if_true, Option.bind_some]
          split_ifs <;> simp_all
        · simp [hvn]
      · simp only [h19, if_false, Bool.false_and, Option.bind_some]
        split_ifs <;> simp_all
    · simp [hv]

end RoomBooking

open RoomBooking in
/-- Claim C5 (amended): normalize_date of the smart-booking script tries the
ordered format list; a well-formed length-10 ISO string is returned verbatim
with no substitution; the 1900 epoch placeholder becomes the current year; a
parsed date strictly before now gets the current year substituted, and only
if still strictly before now the next year (a substitution producing an
invalid date fails that format); unparseable input yields today.  The
form-inspector variant performs no before-now substitution at all. -/
theorem c5_roll_forward_amended :
    (∀ (now : Now) (os : Option String),
      normalizeDateSmart now os = normalizeDateAmendedSpec now os) ∧
    normalizeDateInspector ⟨2026, 10, 12, 540⟩ (some "12/25/2020") =
      "2020-12-25" := by
  constructor
  · intro now os
    unfold normalizeDateSmart normalizeDateAmendedSpec
    cases os with
    | none => rfl
    | some s =>
      simp only [tryDateFormat_eq_spec]
  · decide

namespace RoomBooking

/-- A digit character's value is at most 9. -/
theorem digitVal_le_9 (c : Char) (h : isDig c = true) : digitVal c ≤ 9 := by
  simp only [isDig, Bool.and_eq_true, decide_eq_true_eq] at h
  simp only [digitVal]
  omega

/-- Every value produced by a numeric strptime field satisfies any property
holding on its two-digit value set and on all one-digit values. -/
theorem numField_bound (v2 v1 : Nat → Bool) (P : Nat → Prop)
    (h2 : ∀ v, v2 v = true → P v) (h1 : ∀ v, v1 v = true → v ≤ 9 → P v)
    (l : List Char) (v : Nat) (r : List Char)
    (h : numField v2 v1 l = some (v, r)) : P v := by
  match l with
  | [] => simp [numField] at h
  | [c1] =>
    simp only [numField] at h
    split_ifs at h with hc
    obtain ⟨rfl, rfl⟩ : digitVal c1 = v ∧ ([] : List Char) = r := by simpa using h
    simp only [Bool.and_eq_true] at hc
    exact h1 _ hc.2 (digitVal_le_9 _ hc.1)
  | c1 :: c2 :: rest =>
    simp only [numField] at h
    split_ifs at h with hc hc2
    · obtain ⟨rfl, rfl⟩ : digitVal c1 * 10 + digitVal c2 = v ∧ rest = r := by
        simpa using h
      simp only [Bool.and_eq_true] at hc
      exact h2 _ hc.2
    · obtain ⟨rfl, rfl⟩ : digitVal c1 = v ∧ c2 :: rest = r := by simpa using h
      simp only [Bool.and_eq_true] at hc2
      exact h1 _ hc2.2 (digitVal_le_9 _ hc2.1)

/-- Directive `%H` yields an hour at most 23. -/
theorem hour24Field_le (l : List Char) (v : Nat) (r : List Char)
    (h : hour24Field l = some (v, r)) : v ≤ 23 :=
  numField_bound _ _ (fun v => v ≤ 23)
    (fun v hv => by simpa using hv) (fun v _ h9 => by omega) l v r h

/-- Directive `%I` yields an hour between 1 and 12. -/
theorem hour12Field_bound (l : List Char) (v : Nat) (r : List Char)
    (h : hour12Field l = some (v, r)) : 1 ≤ v ∧ v ≤ 12 :=
  numField_bound _ _ (fun v => 1 ≤ v ∧ v ≤ 12)
    (fun v hv => by simpa [Bool.and_eq_true, decide_eq_true_eq] using hv)
    (fun v hv h9 => by
      simp only [decide_eq_true_eq] at hv
      omega) l v r h

/-- Directive `%M` yields a minute at most 59. -/
theorem minuteField_le (l : List Char) (v : Nat) (r : List Char)
    (h : minuteField l = some (v, r)) : v ≤ 59 :=
  numField_bound _ _ (fun v => v ≤ 59)
    (fun v hv => by simpa using hv) (fun v _ h9 => by omega) l v r h

/-- Each fixed time format produces an hour in 0..23 and a minute in 0..59,
the 12-hour formats via the meridiem conversion. -/
theorem rawParseTime_bound (f : TimeFmt) (l : List Char) (h m : Nat)
    (hp : rawParseTime f l = some (h, m)) : h ≤ 23 ∧ m ≤ 59 := by
  cases f with
  | hm =>
    simp only [rawParseTime, bind, Option.bind_eq_some, pure, Option.some.injEq,
      Prod.mk.injEq] at hp
    obtain ⟨⟨hv, r1⟩, hh, r2, hc, ⟨mv, r3⟩, hm2, u, hu, he1, he2⟩ := hp
    subst he1
    subst he2
    exact ⟨hour24Field_le _ _ _ hh, minuteField_le _ _ _ hm2⟩
  | imp =>
    simp only [rawParseTime, bind, Option.bind_eq_some, pure, Option.some.injEq,
      Prod.mk.injEq] at hp
    obtain ⟨⟨hv, r1⟩, hh, r2, hc, ⟨mv, r3⟩, hm2, r4, hw, ⟨pm, r5⟩, hap, u, hu,
      he1, he2⟩ := hp
    subst he1
    subst he2
    obtain ⟨hb1, hb2⟩ := hour12Field_bound _ _ _ hh
    refine ⟨?_, minuteField_le _ _ _ hm2⟩
    cases pm
    · show (if (hv == 12) = true then 0 else hv) ≤ 23
      split_ifs with hq
      · norm_num
      · omega
    · show (if (hv == 12) = true then 12 else hv + 12) ≤ 23
      split_ifs with hq
      · norm_num
      · simp only [beq_iff_eq] at hq
        omega
  | ip =>
    simp only [rawParseTime, bind, Option.bind_eq_some, pure, Option.some.injEq,
      Prod.mk.injEq] at hp
    obtain ⟨⟨hv, r1⟩, hh, r2, hw, ⟨pm, r5⟩, hap, u, hu, he1, he2⟩ := hp
    subst he1
    subst he2
    obtain ⟨hb1, hb2⟩ := hour12Field_bound _ _ _ hh
    refine ⟨?_, by omega⟩
    cases pm
    · show (if (hv == 12) = true then 0 else hv) ≤ 23
      split_ifs with hq
      · norm_num
      · omega
    · show (if (hv == 12) = true then 12 else hv + 12) ≤ 23
      split_ifs with hq
      · norm_num
      · simp only [beq_iff_eq] at hq
        omega
  | h24 =>
    simp only [rawParseTime, bind, Option.bind_eq_some, pure, Option.some.injEq,
      Prod.mk.injEq] at hp
    obtain ⟨⟨hv, r1⟩, hh, u, hu, he1, he2⟩ := hp
    subst he1
    subst he2
    exact ⟨hour24Field_le _ _ _ hh, by omega⟩

/-- Extract the succeeding element from `List.findSome?`. -/
theorem findSome?_eq_some_exists {α β : Type} (f : α → Option β) (l : List α)
    (b : β) (h : l.findSome? f = some b) : ∃ a, a ∈ l ∧ f a = some b := by
  induction l with
  | nil => simp [List.findSome?] at h
  | cons x t ih =>
    rw [List.findSome?_cons] at h
    cases hx : f x with
    | some y =>
      rw [hx] at h
      cases h
      exact ⟨x, List.mem_cons_self x t, hx⟩
    | none =>
      rw [hx] at h
      obtain ⟨a, ha, hfa⟩ := ih h
      exact ⟨a, List.mem_cons_of_mem x ha, hfa⟩

/-- The fixed-format path of normalize_time stays within the clock. -/
theorem strptimeTimeHM_bound (s : String) (h m : Nat)
    (hp : strptimeTimeHM s = some (h, m)) : h ≤ 23 ∧ m ≤ 59 := by
  obtain ⟨f, _, hf⟩ := findSome?_eq_some_exists _ _ _ hp
  exact rawParseTime_bound f _ h m hf

/-- The first fallback group is at most two digits. -/
theorem fbTwoDigits_le (c1 : Char) (rest : List Char) (h : isDig c1 = true) :
    (fbTwoDigits c1 rest).1 ≤ 99 := by
  have g1 := digitVal_le_9 c1 h
  match rest with
  | [] =>
    simp only [fbTwoDigits]
    omega
  | c2 :: r2 =>
    simp only [fbTwoDigits]
    split_ifs with h2
    · have g2 := digitVal_le_9 c2 h2
      simp only []
      omega
    · simp only []
      omega

/-- The fallback minute group is at most two digits. -/
theorem fbMinutes_le (l : List Char) : (fbMinutes l).1 ≤ 99 := by
  match l with
  | [] => simp [fbMinutes]
  | [a] =>
    simp only [fbMinutes]
    split_ifs with h
    · have := digitVal_le_9 a h
      simp only []
      omega
    · simp
  | a :: b :: r =>
    simp only [fbMinutes]
    split_ifs with h1 h2
    · simp only [Bool.and_eq_true] at h1
      have := digitVal_le_9 a h1.1
      have := digitVal_le_9 b h1.2
      simp only []
      omega
    · have := digitVal_le_9 a h2
      simp only []
      omega
    · simp

/-- The meridiem adjustment adds at most 12. -/
theorem fbAdjustHour_le (r : List Char) (hv : Nat) (h : hv ≤ 99) :
    fbAdjustHour r hv ≤ 111 := by
  unfold fbAdjustHour
  cases parseAmPm r with
  | none => exact h.trans (by norm_num)
  | some p =>
    obtain ⟨pm, r2⟩ := p
    cases pm
    · show (if (hv == 12) = true then 0 else hv) ≤ 111
      split_ifs <;> omega
    · show (if (hv != 12) = true then hv + 12 else hv) ≤ 111
      split_ifs <;> omega

/-- A fallback match yields an hour at most 111 and a minute at most 99. -/
theorem fallbackAt_bound (l : List Char) (h m : Nat)
    (hp : fallbackAt l = some (h, m)) : h ≤ 111 ∧ m ≤ 99 := by
  match l with
  | [] => simp [fallbackAt] at hp
  | c1 :: rest =>
    simp only [fallbackAt] at hp
    split_ifs at hp with hd
    simp only [Option.some.injEq, Prod.mk.injEq] at hp
    obtain ⟨he1, he2⟩ := hp
    subst he1
    subst he2
    simp only [Bool.not_eq_eq_eq_not, Bool.not_true] at hd
    constructor
    · exact fbAdjustHour_le _ _ (fbTwoDigits_le c1 rest (by simpa using hd))
    · exact fbMinutes_le _

/-- The fallback search inherits the per-position bound. -/
theorem fallbackSearch_bound (l : List Char) (h m : Nat)
    (hp : fallbackSearch l = some (h, m)) : h ≤ 111 ∧ m ≤ 99 := by
  induction l with
  | nil => simp [fallbackSearch] at hp
  | cons c r ih =>
    rw [fallbackSearch] at hp
    cases hat : fallbackAt (c :: r) with
    | some x =>
      rw [hat] at hp
      cases hp
      exact fallbackAt_bound _ _ _ hat
    | none =>
      rw [hat] at hp
      exact ih hp

end RoomBooking

open RoomBooking in
/-- Counterexample to claim C7 as stated: the input 99 reaches the regex
fallback, which returns 99:00 — not a 24-hour clock time, since no hour in
00..23 with a minute in 00..59 renders as 99:00. -/
theorem c7_counterexample :
    normalizeTimeSmart (some "99") = "99:00" ∧
    ((List.range 24).all (fun h =>
      (List.range 60).all (fun m => !(timeStr h m == "99:00")))) = true := by
  constructor
  · decide
  · decide

open RoomBooking in
/-- Claim C7 (amended): the fixed-format path of normalize_time yields a
zero-padded 24-hour time (hour 00-23, minute 00-59), but the regex fallback
can emit hours up to 111 (two digits plus the pm shift) and minutes up to 99;
the examples hold: 2:30 PM becomes 14:30, 14 becomes 14:00, and input
without a parseable time yields 10:00. -/
theorem c7_time_normalization_amended :
    (∀ (s : String) (h m : Nat), strptimeTimeHM s = some (h, m) →
      h ≤ 23 ∧ m ≤ 59) ∧
    (∀ (l : List Char) (h m : Nat), fallbackSearch l = some (h, m) →
      h ≤ 111 ∧ m ≤ 99) ∧
    normalizeTimeSmart (some "2:30 PM") = "14:30" ∧
    normalizeTimeSmart (some "14") = "14:00" ∧
    normalizeTimeSmart (some "whenever works") = "10:00" ∧
    normalizeTimeSmart none = "10:00" := by
  refine ⟨fun s h m hp => strptimeTimeHM_bound s h m hp,
    fun l h m hp => fallbackSearch_bound l h m hp, ?_, ?_, ?_, ?_⟩
  · decide
  · decide
  · decide
  · decide

open RoomBooking in
/-- Witness for C7 (amended): the fixed-format bound applied to the concrete
parse of 14, which the format path reads as 14:00. -/
theorem c7_time_normalization_amended_witness : (14 : Nat) ≤ 23 ∧ (0 : Nat) ≤ 59 :=
  c7_time_normalization_amended.1 "14" 14 0 (by decide)

open RoomBooking in
/-- Claim C8 (amended): for every start time parsing as hours and minutes and
every duration string, the end time is start plus the parsed duration modulo
24 hours, where a number only counts when a unit keyword accompanies it:
with minute present the first number is taken as minutes (minute takes
precedence over hour), else with hour present the first number is multiplied
by 60, else the duration defaults to 60 minutes; in particular 10:00 plus
90 minutes is 11:30 and 23:30 plus 1 hour wraps to 00:30. -/
theorem c8_end_time_amended :
    (∀ (start dur : String) (sh sm : Nat),
      parseHMStrict start = some ((sh : Int), (sm : Int)) →
      calculateEndTimeSmart start dur =
        timeStr ((sh * 60 + sm + amendedDuration dur) / 60 % 24)
                ((sh * 60 + sm + amendedDuration dur) % 60)) ∧
    calculateEndTimeSmart "10:00" "90 minutes" = "11:30" ∧
    calculateEndTimeSmart "23:30" "1 hour" = "00:30" := by
  refine ⟨?_, by decide, by decide⟩
  intro start dur sh sm hp
  have hd : (if strContains "minute" dur then
        (match firstNumber dur with
         | some n => (n : Int)
         | none => 60)
      else if strContains "hour" dur then
        (match firstNumber dur with
         | some n => (n : Int) * 60
         | none => 60)
      else 60) = ((amendedDuration dur : Nat) : Int) := by
    unfold amendedDuration
    split_ifs <;> cases firstNumber dur <;> simp [Option.getD]
  unfold calculateEndTimeSmart
  rw [hp]
  simp only []
  rw [hd]
  have htot : (sh : Int) * 60 + (sm : Int) + ((amendedDuration dur : Nat) : Int) =
      ((sh * 60 + sm + amendedDuration dur : Nat) : Int) := by
    push_cast
    ring
  rw [htot]
  congr 1

open RoomBooking in
/-- Witness for C8 (amended): the rule applied at the concrete start 10:00
and duration 45 minutes. -/
theorem c8_end_time_amended_witness :
    calculateEndTimeSmart "10:00" "45 minutes" =
      timeStr ((10 * 60 + 0 + amendedDuration "45 minutes") / 60 % 24)
              ((10 * 60 + 0 + amendedDuration "45 minutes") % 60) :=
  c8_end_time_amended.1 "10:00" "45 minutes" 10 0 (by decide)

namespace RoomBooking

/-- The printed digit of `k < 10` is a digit character. -/
theorem digitChar_isDig (k : Nat) (h : k < 10) : isDig (digitChar k) = true := by
  interval_cases k <;> decide

/-- Printing then reading a digit below 10 is the identity. -/
theorem digitVal_digitChar (k : Nat) (h : k < 10) : digitVal (digitChar k) = k := by
  interval_cases k <;> decide

/-- A printed digit is not a dash. -/
theorem digitChar_ne_dash (k : Nat) (h : k < 10) : (digitChar k == '-') = false := by
  interval_cases k <;> decide

/-- Format `%02d` of `n < 100` is its two digits. -/
theorem pad2_eq (n : Nat) (h : n < 100) :
    pad2 n = [digitChar (n / 10), digitChar (n % 10)] := by
  simp [pad2, h]

/-- Format `%04d` of `n < 10000` is its four digits. -/
theorem pad4_eq (n : Nat) (h : n < 10000) :
    pad4 n = [digitChar (n / 1000), digitChar (n / 100 % 10),
      digitChar (n / 10 % 10), digitChar (n % 10)] := by
  simp [pad4, h]

/-- Directive `%Y` reads back a rendered four-digit year. -/
theorem year4_pad4 (y : Nat) (hy : y ≤ 9999) (r : List Char) :
    year4 (pad4 y ++ r) = some (y, r) := by
  rw [pad4_eq y (by omega)]
  have d1 : y / 1000 < 10 := by omega
  have d2 : y / 100 % 10 < 10 := Nat.mod_lt _ (by norm_num)
  have d3 : y / 10 % 10 < 10 := Nat.mod_lt _ (by norm_num)
  have d4 : y % 10 < 10 := Nat.mod_lt _ (by norm_num)
  simp only [List.cons_append, List.nil_append, year4, digitChar_isDig _ d1,
    digitChar_isDig _ d2, digitChar_isDig _ d3, digitChar_isDig _ d4,
    digitVal_digitChar _ d1, digitVal_digitChar _ d2, digitVal_digitChar _ d3,
    digitVal_digitChar _ d4, Bool.and_self, if_true, Option.some.injEq,
    Prod.mk.injEq, and_true]
  omega

/-- A two-digit numeric field reads back a zero-padded value accepted by its
two-digit value set. -/
theorem numField_pad2 (v2 v1 : Nat → Bool) (n : Nat) (h : n < 100)
    (hv : v2 n = true) (r : List Char) :
    numField v2 v1 (pad2 n ++ r) = some (n, r) := by
  rw [pad2_eq n h]
  have d1 : n / 10 < 10 := by omega
  have d2 : n % 10 < 10 := Nat.mod_lt _ (by norm_num)
  have hn : digitVal (digitChar (n / 10)) * 10 + digitVal (digitChar (n % 10)) = n := by
    rw [digitVal_digitChar _ d1, digitVal_digitChar _ d2]
    omega
  simp only [List.cons_append, List.nil_append, numField, digitChar_isDig _ d1,
    digitChar_isDig _ d2, hn, hv, Bool.and_self, Bool.and_true, Bool.true_and,
    if_true]

/-- Directive `%m` reads back a rendered month. -/
theorem monthField_pad2 (m : Nat) (h1 : 1 ≤ m) (h2 : m ≤ 12) (r : List Char) :
    monthField (pad2 m ++ r) = some (m, r) := by
  unfold monthField
  exact numField_pad2 _ _ m (by omega)
    (by simp only [Bool.and_eq_true, decide_eq_true_eq]; omega) r

/-- Directive `%d` reads back a rendered day. -/
theorem dayField_pad2 (d : Nat) (h1 : 1 ≤ d) (h2 : d ≤ 31) (r : List Char) :
    dayField (pad2 d ++ r) = some (d, r) := by
  unfold dayField
  exact numField_pad2 _ _ d (by omega)
    (by simp only [Bool.and_eq_true, decide_eq_true_eq]; omega) r

/-- A literal matches its own character. -/
theorem litCh_same (c : Char) (r : List Char) : litCh c (c :: r) = some r := by
  simp [litCh]

/-- Parsing `strptime("%Y-%m-%d")` reads back a rendered ISO date. -/
theorem rawParse_ymd_iso (y m d : Nat) (hy : y ≤ 9999) (hm1 : 1 ≤ m)
    (hm2 : m ≤ 12) (hd1 : 1 ≤ d) (hd2 : d ≤ 31) :
    rawParse .ymd (isoDate y m d).data = some (y, m, d) := by
  show rawParse .ymd (pad4 y ++ '-' :: (pad2 m ++ '-' :: pad2 d)) = some (y, m, d)
  have hday : dayField (pad2 d) = some (d, []) := by
    have := dayField_pad2 d hd1 hd2 []
    rwa [List.append_nil] at this
  simp only [rawParse, bind, Option.bind, year4_pad4 y hy, litCh_same,
    monthField_pad2 m hm1 hm2, hday, expectEnd, pure]

/-- Every month has at most 31 days. -/
theorem daysInMonth_le_31 (y m : Nat) : daysInMonth y m ≤ 31 := by
  unfold daysInMonth
  split_ifs <;> omega

/-- Numeric bounds packaged from date validity. -/
theorem validDate_bounds (y m d : Nat) (h : validDate y m d = true) :
    1 ≤ y ∧ y ≤ 9999 ∧ 1 ≤ m ∧ m ≤ 12 ∧ 1 ≤ d ∧ d ≤ 31 := by
  have h31 := daysInMonth_le_31 y m
  simp only [validDate, Bool.and_eq_true, decide_eq_true_eq] at h
  omega

end RoomBooking

namespace RoomBooking

/-- A rendered ISO date has ten characters. -/
theorem isoDate_length (y m d : Nat) (hy : y ≤ 9999) (hm : m ≤ 12) (hd : d ≤ 31) :
    (isoDate y m d).length = 10 := by
  show (pad4 y ++ '-' :: (pad2 m ++ '-' :: pad2 d)).length = 10
  rw [pad4_eq y (by omega), pad2_eq m (by omega), pad2_eq d (by omega)]
  simp

/-- A rendered ISO date has exactly its two separator dashes. -/
theorem isoDate_count_dash (y m d : Nat) (hy : y ≤ 9999) (hm : m ≤ 12)
    (hd : d ≤ 31) : (isoDate y m d).data.count '-' = 2 := by
  show (pad4 y ++ '-' :: (pad2 m ++ '-' :: pad2 d)).count '-' = 2
  rw [pad4_eq y (by omega), pad2_eq m (by omega), pad2_eq d (by omega)]
  have d1 : y / 1000 < 10 := by omega
  have d2 : y / 100 % 10 < 10 := Nat.mod_lt _ (by norm_num)
  have d3 : y / 10 % 10 < 10 := Nat.mod_lt _ (by norm_num)
  have d4 : y % 10 < 10 := Nat.mod_lt _ (by norm_num)
  have m1 : m / 10 < 10 := by omega
  have m2 : m % 10 < 10 := Nat.mod_lt _ (by norm_num)
  have e1 : d / 10 < 10 := by omega
  have e2 : d % 10 < 10 := Nat.mod_lt _ (by norm_num)
  simp [List.count_cons, List.count_append, List.count_nil, digitChar_ne_dash _ d1,
    digitChar_ne_dash _ d2, digitChar_ne_dash _ d3, digitChar_ne_dash _ d4,
    digitChar_ne_dash _ m1, digitChar_ne_dash _ m2, digitChar_ne_dash _ e1,
    digitChar_ne_dash _ e2]

/-- A valid rendered ISO date passes the well-formed-ISO pre-check. -/
theorem isoPassthrough_iso (y m d : Nat) (h : validDate y m d = true) :
    isoPassthrough (isoDate y m d) = true := by
  obtain ⟨_, hy, hm1, hm2, hd1, hd2⟩ := validDate_bounds y m d h
  simp only [isoPassthrough, isoDate_length y m d hy hm2 hd2,
    isoDate_count_dash y m d hy hm2 hd2,
    rawParse_ymd_iso y m d hy hm1 hm2 hd1 hd2, h, Bool.and_self]
  decide

/-- The pre-check forces ten characters, so the null-likeness tests fail and
the pre-check branch returns the string verbatim. -/
theorem normalizeDateSmart_passthrough (now : Now) (s : String)
    (h : isoPassthrough s = true) : normalizeDateSmart now (some s) = s := by
  have hlen : s.data.length = 10 := by
    have h1 : (s.length == 10) = true := by
      simp only [isoPassthrough, Bool.and_eq_true] at h
      exact h.1.1
    have h2 : s.length = 10 := by
      simpa only [beq_iff_eq] using h1
    exact h2
  have hne : s.data.isEmpty = false := by
    cases hd : s.data with
    | nil => rw [hd] at hlen; simp at hlen
    | cons a t => rfl
  have hnull : (pyLower s == "null") = false := by
    apply beq_eq_false_iff_ne.mpr
    intro he
    have : (pyLower s).data.length = ("null" : String).data.length := by rw [he]
    simp only [pyLower, List.length_map] at this
    rw [hlen] at this
    simp at this
  have hnone : (pyLower s == "none") = false := by
    apply beq_eq_false_iff_ne.mpr
    intro he
    have : (pyLower s).data.length = ("none" : String).data.length := by rw [he]
    simp only [pyLower, List.length_map] at this
    rw [hlen] at this
    simp at this
  simp only [normalizeDateSmart, hne, hnull, hnone, h, Bool.or_self, Bool.false_or,
    if_false, if_true]
  rfl

end RoomBooking

namespace RoomBooking

/-- A date whose year precedes now's year is before now. -/
theorem dateBeforeNow_of_year_lt (y m d : Nat) (n : Now) (h : y < n.year) :
    dateBeforeNow y m d n = true := by
  simp [dateBeforeNow, h]

/-- Every successful format iteration of the smart normalize_date returns a
rendered valid date whose year is between now's year (at least 1000) and
9999. -/
theorem tryDateFormat_shape (now : Now) (fmt : DateFmt) (l : List Char)
    (out : String) (h1000 : 1000 ≤ now.year) (h9998 : now.year ≤ 9998)
    (h : tryDateFormat now fmt l = some out) :
    ∃ y m d, out = isoDate y m d ∧ validDate y m d = true ∧
      1000 ≤ y ∧ y ≤ 9999 := by
  unfold tryDateFormat at h
  cases hr : rawParse fmt l with
  | none => rw [hr] at h; simp at h
  | some t =>
    obtain ⟨y0, m, d⟩ := t
    rw [hr] at h
    dsimp only at h
    by_cases hv : validDate y0 m d = true
    case neg =>
      rw [Bool.not_eq_true] at hv
      simp only [hv, Bool.not_false, if_true] at h
      exact absurd h (by simp)
    rw [hv] at h
    simp only [Bool.not_true, Bool.false_eq_true, if_false] at h
    by_cases h19 : (y0 == 1900) = true
    · rw [h19] at h
      simp only [if_true, Bool.true_and] at h
      by_cases hvn : validDate now.year m d = true
      case neg =>
        rw [Bool.not_eq_true] at hvn
        simp only [hvn, Bool.not_false, if_true] at h
        exact absurd h (by simp)
      rw [hvn] at h
      simp only [Bool.not_true, Bool.false_eq_true, if_false] at h
      by_cases hb1 : dateBeforeNow now.year m d now = true
      · rw [hb1] at h
        simp only [if_true] at h
        by_cases hvn2 : validDate (now.year + 1) m d = true
        case neg =>
          rw [Bool.not_eq_true] at hvn2
          simp only [hvn2, Bool.not_false, if_true] at h
          exact absurd h (by simp)
        rw [hvn2] at h
        simp only [Bool.not_true, Bool.false_eq_true, if_false,
          Option.some.injEq] at h
        exact ⟨now.year + 1, m, d, h.symm, hvn2, by omega, by omega⟩
      · rw [Bool.not_eq_true] at hb1
        rw [hb1] at h
        simp only [Bool.false_eq_true, if_false, Option.some.injEq] at h
        exact ⟨now.year, m, d, h.symm, hvn, by omega, by omega⟩
    · rw [Bool.not_eq_true] at h19
      rw [h19] at h
      simp only [Bool.false_eq_true, if_false, Bool.false_and] at h
      by_cases hb1 : dateBeforeNow y0 m d now = true
      · rw [hb1] at h
        simp only [if_true] at h
        by_cases hvn : validDate now.year m d = true
        case neg =>
          rw [Bool.not_eq_true] at hvn
          simp only [hvn, Bool.not_false, if_true] at h
          exact absurd h (by simp)
        rw [hvn] at h
        simp only [Bool.not_true, Bool.false_eq_true, if_false] at h
        by_cases hb2 : dateBeforeNow now.year m d now = true
        · rw [hb2] at h
          simp only [if_true] at h
          by_cases hvn2 : validDate (now.year + 1) m d = true
          case neg =>
            rw [Bool.not_eq_true] at hvn2
            simp only [hvn2, Bool.not_false, if_true] at h
            exact absurd h (by simp)
          rw [hvn2] at h
          simp only [Bool.not_true, Bool.false_eq_true, if_false,
            Option.some.injEq] at h
          exact ⟨now.year + 1, m, d, h.symm, hvn2, by omega, by omega⟩
        · rw [Bool.not_eq_true] at hb2
          rw [hb2] at h
          simp only [Bool.false_eq_true, if_false, Option.some.injEq] at h
          exact ⟨now.year, m, d, h.symm, hvn, by omega, by omega⟩
      · rw [Bool.not_eq_true] at hb1
        rw [hb1] at h
        simp only [Bool.false_eq_true, if_false, Option.some.injEq] at h
        obtain ⟨hy1, hy2, _⟩ := validDate_bounds y0 m d hv
        have hge : now.year ≤ y0 := by
          by_contra hlt
          have hb := dateBeforeNow_of_year_lt y0 m d now (by omega)
          rw [hb] at hb1
          exact absurd hb1 (by simp)
        exact ⟨y0, m, d, h.symm, hv, by omega, hy2⟩

end RoomBooking

namespace RoomBooking

/-- Output shape of the smart normalize_date: either the well-formed ISO
input itself, or a rendered valid date with year between 1000 and 9999. -/
theorem normalizeDateSmart_shape (now : Now) (os : Option String)
    (h1000 : 1000 ≤ now.year) (h9998 : now.year ≤ 9998)
    (hvnow : validDate now.year now.month now.day = true) :
    (∃ s, os = some s ∧ isoPassthrough s = true ∧
      normalizeDateSmart now os = s) ∨
    (∃ y m d, normalizeDateSmart now os = isoDate y m d ∧
      validDate y m d = true ∧ 1000 ≤ y ∧ y ≤ 9999) := by
  cases os with
  | none =>
    right
    exact ⟨now.year, now.month, now.day, rfl, hvnow, by omega, by omega⟩
  | some s =>
    by_cases hf : (s.data.isEmpty || pyLower s == "null" || pyLower s == "none") = true
    · right
      refine ⟨now.year, now.month, now.day, ?_, hvnow, by omega, by omega⟩
      simp only [normalizeDateSmart, hf, if_true]
    · rw [Bool.not_eq_true] at hf
      by_cases hp : isoPassthrough s = true
      · left
        exact ⟨s, rfl, hp, normalizeDateSmart_passthrough now s hp⟩
      · rw [Bool.not_eq_true] at hp
        right
        cases hfind : dateFormats.findSome?
            (fun fmt => tryDateFormat now fmt (s.data.map lowerChar)) with
        | some out =>
          obtain ⟨fmt, _, hfmt⟩ := findSome?_eq_some_exists _ _ _ hfind
          obtain ⟨y, m, d, hout, hval, hy1, hy2⟩ :=
            tryDateFormat_shape now fmt _ out h1000 h9998 hfmt
          refine ⟨y, m, d, ?_, hval, hy1, hy2⟩
          simp only [normalizeDateSmart, hf, hp, hfind, Bool.false_eq_true,
            if_false]
          exact hout
        | none =>
          refine ⟨now.year, now.month, now.day, ?_, hvnow, by omega, by omega⟩
          simp only [normalizeDateSmart, hf, hp, hfind, Bool.false_eq_true,
            if_false]

end RoomBooking

open RoomBooking in
/-- Claim C6: normalizing a date twice equals normalizing it once (for every
input, in particular every supported date string), and an already-canonical
ISO date passes through unchanged. -/
theorem c6_normalize_date_idempotent :
    (∀ (now : Now) (os : Option String), 1000 ≤ now.year → now.year ≤ 9998 →
      validDate now.year now.month now.day = true →
      normalizeDateSmart now (some (normalizeDateSmart now os)) =
        normalizeDateSmart now os) ∧
    (∀ now : Now, normalizeDateSmart now (some "2025-08-16") = "2025-08-16") := by
  constructor
  · intro now os h1000 h9998 hvnow
    rcases normalizeDateSmart_shape now os h1000 h9998 hvnow with
      ⟨s, _, hp, heq⟩ | ⟨y, m, d, heq, hval, _, _⟩
    · rw [heq]
      exact normalizeDateSmart_passthrough now s hp
    · rw [heq]
      exact normalizeDateSmart_passthrough now _ (isoPassthrough_iso y m d hval)
  · intro now
    exact normalizeDateSmart_passthrough now _ (by decide)

open RoomBooking in
/-- Witness for C6: idempotence applied at a concrete clock and the input
August 16, which normalizes to 2026-08-16 and is then left unchanged. -/
theorem c6_normalize_date_idempotent_witness :
    normalizeDateSmart ⟨2026, 10, 12, 540⟩
        (some (normalizeDateSmart ⟨2026, 10, 12, 540⟩ (some "August 16"))) =
      normalizeDateSmart ⟨2026, 10, 12, 540⟩ (some "August 16") :=
  c6_normalize_date_idempotent.1 ⟨2026, 10, 12, 540⟩ (some "August 16")
    (by decide) (by decide) (by decide)
